import Mathlib

/-!
# Verification of the PIX payment codec (pixCodec.js)

A shallow embedding of the PIX payment-code library: the CRC16 engine,
the TLV field encoder/decoder, the top-level `encode`/`decode`
orchestration, the payment builder `createPayment`, and the key
classifier `validateKey`.

Modelling conventions:
* JavaScript strings are modelled as Lean `String` (one `Char` per
  UTF-16 code unit; all inputs of interest are in the basic plane).
* JavaScript numbers that hold integers are modelled as `Nat`/`Int`
  with explicit masking where 16-bit overflow matters.
* `parseInt` can return `NaN`; this is modelled as `Option Int`.
* The field scanner `decodeFields` does not terminate on every input
  (a parsed length of `-4` leaves the scan position unchanged), so it
  is embedded with an explicit fuel parameter; a `none` result models
  a run that exceeds the fuel, and the chosen budget
  (`input length + 1`) is enough for every run whose steps all advance
  the position.
* Thrown `Error`s are modelled by the `PixError` sum; a JavaScript call
  that can throw or diverge returns a `JsOutcome`.
-/

namespace Pix

/-- The set of characters treated as whitespace by JavaScript's `\s`
and by `parseInt`'s leading trim (the ASCII part plus the common
Unicode space characters; enough for every input of interest). -/
def jsWhitespace (c : Char) : Bool :=
  c = ' ' || c = '\t' || c = '\n' || c = '\r' || c = '\x0b' || c = '\x0c' ||
  c = Char.ofNat 0xa0 || c = Char.ofNat 0xfeff

/-- Decimal digit characters of `n`, most significant first, with a
structural fuel bound (any fuel above the digit count is enough). -/
def natReprAux : Nat → Nat → List Char
  | 0, _ => []
  | fuel + 1, n =>
    if n < 10 then [Char.ofNat (48 + n)]
    else natReprAux fuel (n / 10) ++ [Char.ofNat (48 + n % 10)]

/-- Decimal digits of a `Nat`, most significant first, as characters:
the model of JavaScript `Number.prototype.toString()` for a
nonnegative integer. -/
def natRepr (n : Nat) : String := ⟨natReprAux (n + 1) n⟩

/-- `Number.prototype.toString()` for a (possibly negative) integer. -/
def intRepr : Int → String
  | Int.ofNat n => natRepr n
  | Int.negSucc n => "-" ++ natRepr (n + 1)

/-- Lowercase hexadecimal digit character for a value below 16. -/
def hexChar (n : Nat) : Char :=
  if n < 10 then Char.ofNat (48 + n) else Char.ofNat (87 + n)

/-- Hexadecimal digit characters of `n`, most significant first, with
a structural fuel bound (any fuel above the digit count is enough). -/
def natHexReprAux : Nat → Nat → List Char
  | 0, _ => []
  | fuel + 1, n =>
    if n < 16 then [hexChar n]
    else natHexReprAux fuel (n / 16) ++ [hexChar (n % 16)]

/-- Hexadecimal digits of a `Nat`, most significant first, lowercase:
the model of JavaScript `Number.prototype.toString(16)`. -/
def natHexRepr (n : Nat) : String := ⟨natHexReprAux (n + 1) n⟩

/-- `String.prototype.padStart(n, c)`. -/
def padStart (s : String) (n : Nat) (c : Char) : String :=
  ⟨List.replicate (n - s.length) c ++ s.data⟩

/-- `String.prototype.toUpperCase()` (ASCII letters; characters with
multi-character uppercase expansions are outside the model). -/
def upperStr (s : String) : String :=
  ⟨s.data.map Char.toUpper⟩

/-- `s.slice(0, -4)`: everything but the last four characters. -/
def strTake (s : String) (n : Nat) : String := ⟨s.data.take n⟩

/-- `s.slice(-4)`: the last four characters (the whole string when it
is shorter). -/
def strDrop (s : String) (n : Nat) : String := ⟨s.data.drop n⟩

/-- `String.prototype.substr(start, len)` on the character list, with
JavaScript's clamping: a negative start counts from the end, a
negative length yields the empty string. -/
def jsSubstr (l : List Char) (start len : Int) : List Char :=
  let st : Nat := if start < 0 then (↑l.length + start).toNat else start.toNat
  (l.drop st).take len.toNat

/-- Numeric value of a list of decimal digit characters. -/
def natFromDigits (ds : List Char) : Nat :=
  ds.foldl (fun a c => a * 10 + (c.toNat - 48)) 0

/-- The longest leading run of decimal digits, or `none` if there is
none (the digit-collecting core of `parseInt`). -/
def leadDigits (l : List Char) : Option Nat :=
  let ds := l.takeWhile Char.isDigit
  if ds.isEmpty then none else some (natFromDigits ds)

/-- `parseInt(s, 10)`: skip leading whitespace, accept an optional
sign, read the longest digit run; `none` models `NaN`. -/
def parseIntJs (l : List Char) : Option Int :=
  match l.dropWhile jsWhitespace with
  | '-' :: rest => (leadDigits rest).map (fun n => -(n : Int))
  | '+' :: rest => (leadDigits rest).map (fun n => (n : Int))
  | rest => (leadDigits rest).map (fun n => (n : Int))

/-- `formatLength(value, length)` from the source: decimal rendering
left-padded with zeros. -/
def formatLength (value : Nat) (length : Nat) : String :=
  padStart (natRepr value) length '0'

/-- Two-digit length rendering, `formatLength(n, 2)`. -/
def pad2 (n : Nat) : String := formatLength n 2

/-- One round of the CRC16 inner loop: test bit 15, shift left, XOR
the polynomial `0x1021` when the bit was set, mask to 16 bits. -/
def crcRound (crc : Nat) : Nat :=
  if crc &&& 0x8000 ≠ 0 then ((crc <<< 1) ^^^ 0x1021) &&& 0xffff
  else (crc <<< 1) &&& 0xffff

/-- Absorb one character: XOR its code unit shifted into the high
byte, then run eight rounds. -/
def crcChar (crc : Nat) (c : Char) : Nat :=
  (List.range 8).foldl (fun acc _ => crcRound acc) (crc ^^^ (c.toNat <<< 8))

/-- The register value after absorbing the whole string, starting
from `0xffff`. -/
def crcFold (l : List Char) : Nat :=
  l.foldl crcChar 0xffff

/-- `calculateCRC16(data)`: the register value rendered as uppercase
hexadecimal, left-padded with zeros to four characters. -/
def calculateCRC16 (data : String) : String :=
  padStart (upperStr (natHexRepr (crcFold data.data))) 4 '0'

mutual

/-- A decoded or to-be-encoded TLV field: id, length string (as it was
built, e.g. `"04"` or `"variable"`), an optional human-readable
description, and a value. -/
inductive Field : Type where
  | mk : String → String → Option String → FieldVal → Field

/-- A field value: a literal string, or a list of nested fields. -/
inductive FieldVal : Type where
  | str : String → FieldVal
  | arr : List Field → FieldVal

end

/-- Field id. -/
def Field.id : Field → String
  | .mk i _ _ _ => i

/-- Field length string. -/
def Field.lengthStr : Field → String
  | .mk _ l _ _ => l

/-- Field description. -/
def Field.description : Field → Option String
  | .mk _ _ d _ => d

/-- Field value. -/
def Field.value : Field → FieldVal
  | .mk _ _ _ v => v

mutual

/-- `encodeField(id, value)`: scalar fields become
`id ++ pad2(len) ++ value`; nested fields concatenate their encoded
subfields and wrap the result the same way. -/
def encodeField (id : String) (v : FieldVal) : String :=
  match v with
  | .str s => id ++ pad2 s.length ++ s
  | .arr fs =>
    let nestedData := encodeSubs fs
    id ++ pad2 nestedData.length ++ nestedData

/-- The `value.forEach` loop of `encodeField`'s nested case: each
subfield with a truthy id contributes `id ++ pad2(len) ++ value`,
where an array-valued subfield first serializes its own children. -/
def encodeSubs : List Field → String
  | [] => ""
  | .mk sid _ _ sval :: rest =>
    (if sid = "" then "" else sid ++ pad2 (subValueStr sval).length ++ subValueStr sval)
      ++ encodeSubs rest

/-- The string contents of a subfield value: itself for a string, the
concatenation of `encodeField` over the children for an array. -/
def subValueStr : FieldVal → String
  | .str s => s
  | .arr gs => encodeGrands gs

/-- `subField.value.map((v) => encodeField(v.id, v.value)).join("")`. -/
def encodeGrands : List Field → String
  | [] => ""
  | .mk gid _ _ gval :: rest => encodeField gid gval ++ encodeGrands rest

end

/-- The field-scanning loop of `decodeFields`, at `pos` characters
into `l`, with explicit fuel; `none` models running out of fuel
(the loop in the source does not terminate on every input). -/
def decodeGo : Nat → List Char → Int → Option (List Field)
  | 0, _, _ => none
  | fuel + 1, l, pos =>
    if pos + 4 < (l.length : Int) then
      let id : String := ⟨jsSubstr l pos 2⟩
      match parseIntJs (jsSubstr l (pos + 2) 2) with
      | some len =>
        let raw : List Char := jsSubstr l (pos + 4) len
        if id = "26" ∨ id = "62" then
          (decodeGo fuel raw 0).bind fun subs =>
            (decodeGo fuel l (pos + 4 + len)).map fun fs =>
              Field.mk id (padStart (intRepr len) 2 '0') none (.arr subs) :: fs
        else
          (decodeGo fuel l (pos + 4 + len)).map fun fs =>
            Field.mk id (padStart (intRepr len) 2 '0') none (.str ⟨raw⟩) :: fs
      | none =>
        -- length is NaN: `substr(pos+4, NaN)` is empty, the pushed
        -- length string is "NaN", and the position becomes NaN, so the
        -- loop exits immediately afterwards with no synthesized field.
        if id = "26" ∨ id = "62" then
          (decodeGo fuel [] 0).map fun subs => [Field.mk id "NaN" none (.arr subs)]
        else
          some [Field.mk id "NaN" none (.str "")]
    else if pos < (l.length : Int) then
      -- characters remain after the loop: synthesize the CRC field;
      -- `substr(pos + 4, 4)` starts past the end, so its value is "".
      some [Field.mk "63" "04" none (.str ⟨jsSubstr l (pos + 4) 4⟩)]
    else
      some []

/-- `decodeFields(pixString)`, with fuel `length + 1` (enough for
every run whose steps all advance the position). -/
def decodeFields (s : String) : Option (List Field) :=
  decodeGo (s.length + 1) s.data 0

/-- The fixed id-to-description lookup table of `decode`. -/
def descriptionsMap (id : String) : Option String :=
  if id = "00" then some "Payload Format Indicator"
  else if id = "26" then some "Merchant Account Information"
  else if id = "52" then some "Merchant Category Code (MCC)"
  else if id = "53" then some "Transaction Currency"
  else if id = "54" then some "Transaction Amount"
  else if id = "58" then some "Country Code"
  else if id = "59" then some "Merchant Name"
  else if id = "60" then some "Merchant City"
  else if id = "62" then some "Additional Data Field Template"
  else if id = "63" then some "CRC16 - result's 4 nibbles"
  else none

/-- The subfield labelling of `decode`: ids `00`/`01` under `26`, ids
`05`/`50` under `62`. -/
def annotateSub (parentId : String) (sub : Field) : Field :=
  match sub with
  | .mk sid sl _sd sv =>
    if parentId = "26" then
      if sid = "00" then .mk sid sl (some "GUI") sv
      else if sid = "01" then .mk sid sl (some "Key") sv
      else sub
    else if parentId = "62" then
      if sid = "05" then .mk sid sl (some "Transaction ID") sv
      else if sid = "50" then .mk sid sl (some "Payment system specific template") sv
      else sub
    else sub

/-- The per-field half of `decode`'s annotation pass: attach the
table description when the id has one, and label the subfields of an
array-valued field. -/
def annotateField (f : Field) : Field :=
  match f with
  | .mk id l d v =>
    let d' := match descriptionsMap id with
      | some desc => some desc
      | none => d
    match v with
    | .arr subs => .mk id l d' (.arr (subs.map (annotateSub id)))
    | .str s => .mk id l d' (.str s)

/-- `decode`'s annotation pass over the decoded field list. -/
def annotate (fields : List Field) : List Field :=
  fields.map annotateField

/-- The errors thrown by the codec. -/
inductive PixError : Type where
  /-- encode: "Invalid PIX data format. Expected object with value array." -/
  | invalidDataFormat : PixError
  /-- decode: "Invalid PIX string. Expected non-empty string." -/
  | invalidString : PixError
  /-- decode: "Invalid CRC. Expected: _, Got: _" (computed, provided). -/
  | invalidCRC : String → String → PixError
  /-- createPayment: "Missing required parameters: key, merchantName,
  and merchantCity are required". -/
  | missingParams : PixError
deriving DecidableEq

/-- The observable outcome of a JavaScript call: a value, a thrown
error, or non-termination. -/
inductive JsOutcome (α : Type) : Type where
  | returns : α → JsOutcome α
  | throws : PixError → JsOutcome α
  | diverges : JsOutcome α

/-- The PIX data object `{ value: [...] }` produced and consumed by
the codec. -/
structure PixData : Type where
  value : List Field

/-- The body-building loop of `encode`: concatenate `encodeField` over
the fields with a truthy id (in the typed model `value` is never
`undefined`). -/
def encodeBody : List Field → String
  | [] => ""
  | f :: fs =>
    (if f.id = "" then "" else encodeField f.id f.value) ++ encodeBody fs

namespace PixCodec

/-- `PixCodec.encode(pixData)`: drop any pre-existing CRC field,
encode the rest in order, append the literal `"6304"`, then append the
CRC16 over everything so far.  (The input-shape guard of the source
cannot fire on the typed `PixData`.) -/
def encode (pixData : PixData) : String :=
  let fieldsWithoutCRC := pixData.value.filter (fun f => f.id ≠ "63")
  let withId := encodeBody fieldsWithoutCRC ++ "6304"
  withId ++ calculateCRC16 withId

/-- The decoded object `{ value: fields }`, modelled as a key/value
list so the object's shape is observable. -/
def DecodedObj : Type := List (String × List Field)

/-- `PixCodec.decode(pixString)`: reject the empty string, compare the
last four characters against the CRC16 of everything before them, then
scan the whole string into fields and annotate them. -/
def decode (pixString : String) : JsOutcome DecodedObj :=
  if pixString = "" then .throws .invalidString
  else
    let dataWithoutCRC := strTake pixString (pixString.length - 4)
    let providedCRC := strDrop pixString (pixString.length - 4)
    let calculatedCRC := calculateCRC16 dataWithoutCRC
    if providedCRC ≠ calculatedCRC then
      .throws (.invalidCRC calculatedCRC providedCRC)
    else
      match decodeFields pixString with
      | none => .diverges
      | some fields => .returns [("value", annotate fields)]

end PixCodec

/-- The numeric value of the longest leading `digits [. digits]` part
of a string, as (integer digits, fractional digits); `none` when it
has no digit, in which case `parseFloat` yields `NaN`.  Signs,
exponents and leading whitespace are outside the model. -/
def decParse (s : String) : Option (List Char × List Char) :=
  let intDigits := s.data.takeWhile Char.isDigit
  let rest := s.data.drop intDigits.length
  let fracDigits :=
    match rest with
    | '.' :: tail => tail.takeWhile Char.isDigit
    | _ => []
  if intDigits.isEmpty ∧ fracDigits.isEmpty then none
  else some (intDigits, fracDigits)

/-- The model of `parseFloat(s).toFixed(2)`: parse the decimal
numeral, round its exact value to two decimal places (ties away from
zero, as `toFixed` does for the values arising here), and render it
with exactly two digits after the point; a non-numeral gives `"NaN"`.
Exact for every numeral whose nearest binary double rounds the same
way, which covers all inputs exercised in this development. -/
def toFixed2 (s : String) : String :=
  match decParse s with
  | none => "NaN"
  | some (intDigits, fracDigits) =>
    let ip := natFromDigits intDigits
    let k := fracDigits.length
    let f := natFromDigits fracDigits
    let scaled := (2 * (ip * 100 * 10 ^ k + 100 * f) + 10 ^ k) / (2 * 10 ^ k)
    natRepr (scaled / 100) ++ "." ++ padStart (natRepr (scaled % 100)) 2 '0'

/-- The parameter object of `createPayment`; an absent property is
`none`, and JavaScript truthiness makes `some ""` behave like an
absent one. -/
structure PaymentParams : Type where
  key : Option String := none
  merchantName : Option String := none
  merchantCity : Option String := none
  amount : Option String := none
  transactionId : Option String := none
  description : Option String := none

/-- JavaScript truthiness of an optional string property. -/
def truthy (o : Option String) : Bool :=
  match o with
  | none => false
  | some s => s ≠ ""

/-- `PixCodec.createPayment(params)`: the canonical field tree, with
the amount field spliced in at index `length - 3` when present and the
additional-data template appended when a transaction id or description
is present. -/
def PixCodec.createPayment (params : PaymentParams) : JsOutcome PixData :=
  if ¬ (truthy params.key ∧ truthy params.merchantName ∧ truthy params.merchantCity) then
    .throws .missingParams
  else
    let key := params.key.getD ""
    let merchantName := params.merchantName.getD ""
    let merchantCity := params.merchantCity.getD ""
    let base : List Field :=
      [ .mk "00" "02" (some "Payload Format Indicator") (.str "01"),
        .mk "26" "variable" (some "Merchant Account Information")
          (.arr [ .mk "00" "14" (some "GUI") (.str "BR.GOV.BCB.PIX"),
                  .mk "01" "variable" (some "Key") (.str key) ]),
        .mk "52" "04" (some "Merchant Category Code (MCC)") (.str "0000"),
        .mk "53" "03" (some "Transaction Currency") (.str "986"),
        .mk "58" "02" (some "Country Code") (.str "BR"),
        .mk "59" "variable" (some "Merchant Name") (.str (upperStr merchantName)),
        .mk "60" "variable" (some "Merchant City") (.str (upperStr merchantCity)) ]
    let withAmount :=
      if truthy params.amount then
        base.take (base.length - 3)
          ++ [Field.mk "54" "variable" (some "Transaction Amount")
                (.str (toFixed2 (params.amount.getD "")))]
          ++ base.drop (base.length - 3)
      else base
    let value :=
      if truthy params.transactionId ∨ truthy params.description then
        let tidPart : List Field :=
          if truthy params.transactionId then
            [.mk "05" "variable" (some "Transaction ID")
              (.str (params.transactionId.getD ""))]
          else []
        let descPart : List Field :=
          if truthy params.description then
            [.mk "02" "variable" (some "Description")
              (.str (params.description.getD ""))]
          else []
        let brPart : List Field :=
          [.mk "50" "variable" (some "Payment system specific template")
            (.arr [ .mk "00" "17" (some "GUI") (.str "BR.GOV.BCB.BRCODE"),
                    .mk "01" "05" (some "version") (.str "1.0.0") ])]
        withAmount ++
          [Field.mk "62" "variable" (some "Additional Data Field Template")
            (.arr (tidPart ++ descPart ++ brPart))]
      else withAmount
    .returns ⟨value⟩

/-- `key.replace(/\D/g, "")`: strip the non-digit characters. -/
def stripNonDigits (s : String) : String :=
  ⟨s.data.filter Char.isDigit⟩

/-- The test `/^\d{n}$/.test(s)`: exactly `n` decimal digits. -/
def digitsExactly (n : Nat) (s : String) : Bool :=
  s.data.length == n && s.data.all Char.isDigit

/-- Splitting a character list on a separator character, the model of
`String.prototype.split` with a one-character separator. -/
def splitOnChar (c : Char) : List Char → List (List Char)
  | [] => [[]]
  | x :: xs =>
    match splitOnChar c xs with
    | [] => [[]]
    | r :: rs => if x = c then [] :: r :: rs else (x :: r) :: rs

/-- The test `/^[^\s@]+@[^\s@]+\.[^\s@]+$/.test(s)`: exactly one `@`,
a nonempty whitespace-free local part, and a whitespace-free domain
with a dot that has characters on both sides. -/
def emailTest (s : String) : Bool :=
  match splitOnChar '@' s.data with
  | [a, b] =>
    !a.isEmpty && a.all (fun c => !jsWhitespace c) &&
    b.all (fun c => !jsWhitespace c) &&
    ((b.drop 1).dropLast.contains '.')
  | _ => false

/-- The test `/^\+55\d{10,11}$/.test(s)`. -/
def phoneTest (s : String) : Bool :=
  s.data.take 3 == ['+', '5', '5'] &&
  (s.data.drop 3).all Char.isDigit &&
  10 ≤ (s.data.drop 3).length && (s.data.drop 3).length ≤ 11

/-- A hexadecimal digit, either case (the regex carries the `i` flag). -/
def hexDigitCI (c : Char) : Bool :=
  c.isDigit || ('a' ≤ c && c ≤ 'f') || ('A' ≤ c && c ≤ 'F')

/-- The test
`/^[0-9a-f]{8}-[0-9a-f]{4}-[0-9a-f]{4}-[0-9a-f]{4}-[0-9a-f]{12}$/i.test(s)`. -/
def uuidTest (s : String) : Bool :=
  match splitOnChar '-' s.data with
  | [a, b, c, d, e] =>
    a.length == 8 && b.length == 4 && c.length == 4 && d.length == 4 &&
    e.length == 12 && a.all hexDigitCI && b.all hexDigitCI &&
    c.all hexDigitCI && d.all hexDigitCI && e.all hexDigitCI
  | _ => false

/-- The result object of `validateKey`. -/
structure KeyValidation : Type where
  isValid : Bool
  type : Option String
  error : Option String := none
deriving DecidableEq

/-- `PixCodec.validateKey(key)`: strip non-digits, then classify in
order CPF (11 digits), CNPJ (14 digits), email, Brazilian phone,
UUID-shaped random key. -/
def PixCodec.validateKey (key : String) : KeyValidation :=
  if key = "" then ⟨false, none, some "Key must be a non-empty string"⟩
  else
    let cleanKey := stripNonDigits key
    if digitsExactly 11 cleanKey then ⟨true, some "CPF", none⟩
    else if digitsExactly 14 cleanKey then ⟨true, some "CNPJ", none⟩
    else if emailTest key then ⟨true, some "EMAIL", none⟩
    else if phoneTest key then ⟨true, some "PHONE", none⟩
    else if uuidTest key then ⟨true, some "RANDOM", none⟩
    else ⟨false, none, some "Invalid PIX key format"⟩

/-! ## Observation helpers used to state the claims -/

/-- The id and serialized value contents of a field: the comparison
used to state "same ids and values, descriptions ignored". -/
def fieldSig (f : Field) : String × String :=
  (f.id, subValueStr f.value)

/-- The string contents of a scalar field value. -/
def valStr : FieldVal → Option String
  | .str s => some s
  | .arr _ => none

/-- Whether a call returned normally. -/
def JsOutcome.isReturns {α : Type} : JsOutcome α → Bool
  | .returns _ => true
  | _ => false

/-- The annotated field list of a successful decode (the `value`
property of the returned object); `[]` otherwise. -/
def decodedTop (s : String) : List Field :=
  match PixCodec.decode s with
  | .returns obj => ((obj.lookup "value").getD [])
  | _ => []

/-- The scalar value of the first decoded top-level field with the
given id. -/
def topValue (s id : String) : Option String :=
  match (decodedTop s).find? (fun f => f.id == id) with
  | some f => valStr f.value
  | none => none

/-- The document built by a successful `createPayment`. -/
def docOf (params : PaymentParams) : PixData :=
  match PixCodec.createPayment params with
  | .returns d => d
  | _ => ⟨[]⟩


/-! ## Basic facts about the primitives -/

theorem strMk_data (s : String) : (String.mk s.data) = s := by
  cases s
  rfl

theorem padStart_length (s : String) (n : Nat) (c : Char) :
    (padStart s n c).length = max n s.length := by
  show (List.replicate (n - s.length) c ++ s.data).length = _
  have hs : s.length = s.data.length := rfl
  simp only [List.length_append, List.length_replicate]
  omega

/-- `pad2` of a value below 100 is two characters long. -/
theorem pad2_data_length {n : Nat} (h : n < 100) : (pad2 n).data.length = 2 := by
  revert h
  revert n
  decide

/-- `parseInt` reads back a two-digit `pad2` rendering. -/
theorem parseIntJs_pad2 {n : Nat} (h : n < 100) :
    parseIntJs (pad2 n).data = some (n : Int) := by
  revert h
  revert n
  decide

theorem crcRound_lt (x : Nat) : crcRound x < 65536 := by
  unfold crcRound
  split
  · exact Nat.lt_succ_of_le Nat.and_le_right
  · exact Nat.lt_succ_of_le Nat.and_le_right

theorem crcChar_lt (crc : Nat) (c : Char) : crcChar crc c < 65536 := by
  show (List.range 8).foldl (fun acc _ => crcRound acc) _ < 65536
  rw [show (8 : Nat) = 7 + 1 from rfl, List.range_succ, List.foldl_concat]
  exact crcRound_lt _

theorem crcFold_lt (l : List Char) : crcFold l < 65536 := by
  have h : ∀ (l : List Char) (a : Nat), a < 65536 →
      l.foldl crcChar a < 65536 := by
    intro l
    induction l with
    | nil => intro a ha; exact ha
    | cons c t ih => intro a _; exact ih _ (crcChar_lt a c)
  exact h l 0xffff (by norm_num)

theorem natHexReprAux_length_le : ∀ (fuel k n : Nat), n < 16 ^ (k + 1) →
    (natHexReprAux fuel n).length ≤ k + 1 := by
  intro fuel
  induction fuel with
  | zero => intro k n _; simp [natHexReprAux]
  | succ fuel ih =>
    intro k n h
    by_cases h16 : n < 16
    · simp [natHexReprAux, h16]
    · rw [natHexReprAux, if_neg h16]
      match k with
      | 0 => norm_num at h; omega
      | k' + 1 =>
        have hdiv : n / 16 < 16 ^ (k' + 1) := by
          rw [Nat.div_lt_iff_lt_mul (by norm_num)]
          calc n < 16 ^ (k' + 1 + 1) := h
          _ = 16 ^ (k' + 1) * 16 := by ring
        have := ih k' (n / 16) hdiv
        simp only [List.length_append, List.length_cons, List.length_nil]
        omega

theorem upperStr_length (s : String) : (upperStr s).length = s.length := by
  show (s.data.map Char.toUpper).length = s.data.length
  simp

/-- The CRC is always rendered as exactly four characters. -/
theorem calculateCRC16_length (s : String) : (calculateCRC16 s).length = 4 := by
  unfold calculateCRC16
  rw [padStart_length, upperStr_length]
  have h := natHexReprAux_length_le (crcFold s.data + 1) 3 (crcFold s.data) (by
    have := crcFold_lt s.data
    norm_num
    omega)
  have : (natHexRepr (crcFold s.data)).length = (natHexReprAux (crcFold s.data + 1) (crcFold s.data)).length := rfl
  omega

/-! ## Stepping lemmas for the field scanner -/

/-- Reading `k` characters at the length of a prefix returns the
following block. -/
theorem jsSubstr_read (pre mid post : List Char) (st k : Int)
    (hst : st = ↑pre.length) (hk : k.toNat = mid.length) :
    jsSubstr (pre ++ (mid ++ post)) st k = mid := by
  unfold jsSubstr
  subst hst
  rw [if_neg (by omega)]
  simp only [Int.toNat_natCast]
  rw [List.drop_left, hk]
  exact List.take_left mid post

/-- Once the position has reached the end of the input, the scan
returns no further fields. -/
theorem decodeGo_end (f : Nat) (l : List Char) :
    decodeGo (f + 1) l ↑l.length = some [] := by
  rw [decodeGo]
  rw [if_neg (by omega), if_neg (by omega)]

/-- One iteration of the scan over a well-formed scalar TLV tuple. -/
theorem decodeGo_step_scalar (f : Nat) (l a v r : List Char) (id : String)
    (hl : l = a ++ (id.data ++ ((pad2 v.length).data ++ (v ++ r))))
    (hid : id.data.length = 2) (h26 : id ≠ "26") (h62 : id ≠ "62")
    (hv : v.length < 100) (hnz : 0 < v.length + r.length) :
    decodeGo (f + 1) l ↑a.length =
      (decodeGo f l ↑(a.length + 4 + v.length)).map
        (fun fs => Field.mk id (pad2 v.length) none (.str ⟨v⟩) :: fs) := by
  have hpadlen : (pad2 v.length).data.length = 2 := pad2_data_length hv
  have hlen : l.length = a.length + 4 + v.length + r.length := by
    rw [hl]
    simp only [List.length_append, hid, hpadlen]
    omega
  have h1 : jsSubstr l (↑a.length) 2 = id.data := by
    rw [hl]
    exact jsSubstr_read a id.data _ _ _ rfl (by rw [hid]; rfl)
  have h2 : jsSubstr l (↑a.length + 2) 2 = (pad2 v.length).data := by
    rw [hl, show a ++ (id.data ++ ((pad2 v.length).data ++ (v ++ r)))
        = (a ++ id.data) ++ ((pad2 v.length).data ++ (v ++ r)) by
      simp [List.append_assoc]]
    exact jsSubstr_read _ _ _ _ _
      (by simp only [List.length_append, hid]; push_cast; ring)
      (by rw [hpadlen]; rfl)
  have h3 : jsSubstr l (↑a.length + 4) ↑v.length = v := by
    rw [hl, show a ++ (id.data ++ ((pad2 v.length).data ++ (v ++ r)))
        = ((a ++ id.data) ++ (pad2 v.length).data) ++ (v ++ r) by
      simp [List.append_assoc]]
    exact jsSubstr_read _ _ _ _ _
      (by simp only [List.length_append, hid, hpadlen]; push_cast; ring)
      (by simp)
  rw [decodeGo]
  rw [if_pos (by omega : (↑a.length + 4 : Int) < (l.length : Int))]
  rw [h2, parseIntJs_pad2 hv]
  simp only [h1, strMk_data, h3]
  rw [if_neg (by
    intro hor
    rcases hor with h | h
    · exact h26 h
    · exact h62 h)]
  have hpos : (↑a.length + 4 + ↑v.length : Int) = ↑(a.length + 4 + v.length) := by
    push_cast
    ring
  rw [hpos]
  rfl

/-- One iteration of the scan over a well-formed composite TLV tuple
(id `26` or `62`), given the result of scanning its contents. -/
theorem decodeGo_step_composite (f : Nat) (l a v r : List Char) (id : String)
    (subs : List Field)
    (hl : l = a ++ (id.data ++ ((pad2 v.length).data ++ (v ++ r))))
    (hid : id.data.length = 2) (hcomp : id = "26" ∨ id = "62")
    (hv : v.length < 100) (hnz : 0 < v.length + r.length)
    (hsub : decodeGo f v 0 = some subs) :
    decodeGo (f + 1) l ↑a.length =
      (decodeGo f l ↑(a.length + 4 + v.length)).map
        (fun fs => Field.mk id (pad2 v.length) none (.arr subs) :: fs) := by
  have hpadlen : (pad2 v.length).data.length = 2 := pad2_data_length hv
  have hlen : l.length = a.length + 4 + v.length + r.length := by
    rw [hl]
    simp only [List.length_append, hid, hpadlen]
    omega
  have h1 : jsSubstr l (↑a.length) 2 = id.data := by
    rw [hl]
    exact jsSubstr_read a id.data _ _ _ rfl (by rw [hid]; rfl)
  have h2 : jsSubstr l (↑a.length + 2) 2 = (pad2 v.length).data := by
    rw [hl, show a ++ (id.data ++ ((pad2 v.length).data ++ (v ++ r)))
        = (a ++ id.data) ++ ((pad2 v.length).data ++ (v ++ r)) by
      simp [List.append_assoc]]
    exact jsSubstr_read _ _ _ _ _
      (by simp only [List.length_append, hid]; push_cast; ring)
      (by rw [hpadlen]; rfl)
  have h3 : jsSubstr l (↑a.length + 4) ↑v.length = v := by
    rw [hl, show a ++ (id.data ++ ((pad2 v.length).data ++ (v ++ r)))
        = ((a ++ id.data) ++ (pad2 v.length).data) ++ (v ++ r) by
      simp [List.append_assoc]]
    exact jsSubstr_read _ _ _ _ _
      (by simp only [List.length_append, hid, hpadlen]; push_cast; ring)
      (by simp)
  rw [decodeGo]
  rw [if_pos (by omega : (↑a.length + 4 : Int) < (l.length : Int))]
  rw [h2, parseIntJs_pad2 hv]
  simp only [h1, strMk_data, h3]
  rw [if_pos hcomp]
  rw [hsub]
  have hpos : (↑a.length + 4 + ↑v.length : Int) = ↑(a.length + 4 + v.length) := by
    push_cast
    ring
  rw [hpos]
  rfl

/-- Raising the fuel cannot change a scan that already finished. -/
theorem decodeGo_mono : ∀ (f g : Nat) (l : List Char) (pos : Int)
    (res : List Field), f ≤ g → decodeGo f l pos = some res →
    decodeGo g l pos = some res := by
  intro f
  induction f with
  | zero =>
    intro g l pos res _ h
    simp [decodeGo] at h
  | succ f ih =>
    intro g l pos res hfg h
    match g, hfg with
    | g + 1, hfg =>
      have hfg' : f ≤ g := by omega
      rw [decodeGo] at h ⊢
      by_cases hc : pos + 4 < (l.length : Int)
      · rw [if_pos hc] at h ⊢
        cases hpi : parseIntJs (jsSubstr l (pos + 2) 2) with
        | some len =>
          simp only [hpi] at h ⊢
          by_cases hcomp : (⟨jsSubstr l pos 2⟩ : String) = "26" ∨
              (⟨jsSubstr l pos 2⟩ : String) = "62"
          · rw [if_pos hcomp] at h ⊢
            cases hs : decodeGo f (jsSubstr l (pos + 4) len) 0 with
            | none => simp [hs] at h
            | some subs =>
              cases hk : decodeGo f l (pos + 4 + len) with
              | none => simp [hs, hk] at h
              | some fs =>
                simp only [hs, hk, Option.bind, Option.map] at h
                simp only [ih g _ _ _ hfg' hs, ih g _ _ _ hfg' hk,
                  Option.bind, Option.map]
                exact h
          · rw [if_neg hcomp] at h ⊢
            cases hk : decodeGo f l (pos + 4 + len) with
            | none => simp [hk] at h
            | some fs =>
              simp only [hk, Option.map] at h
              simp only [ih g _ _ _ hfg' hk, Option.map]
              exact h
        | none =>
          simp only [hpi] at h ⊢
          by_cases hcomp : (⟨jsSubstr l pos 2⟩ : String) = "26" ∨
              (⟨jsSubstr l pos 2⟩ : String) = "62"
          · rw [if_pos hcomp] at h ⊢
            cases hs : decodeGo f [] 0 with
            | none => simp [hs] at h
            | some subs =>
              simp only [hs, Option.map] at h
              simp only [ih g _ _ _ hfg' hs, Option.map]
              exact h
          · rw [if_neg hcomp] at h ⊢
            exact h
      · rw [if_neg hc] at h ⊢
        exact h

/-! ## Scanning a well-formed encoded document -/

/-- The string that `encodeField` puts on the wire as the contents of
a field value. -/
def wireContent : FieldVal → String
  | .str s => s
  | .arr subs => encodeSubs subs

theorem encodeField_wire (id : String) (v : FieldVal) :
    encodeField id v = id ++ pad2 (wireContent v).length ++ wireContent v := by
  cases v with
  | str s => rfl
  | arr subs => rfl

theorem encodeField_data_length (id : String) (v : FieldVal)
    (hid : id.data.length = 2) (hv : (wireContent v).length < 100) :
    (encodeField id v).data.length = 4 + (wireContent v).length := by
  rw [encodeField_wire]
  simp only [String.data_append, List.length_append, hid]
  have h2 : (pad2 (wireContent v).length).data.length = 2 := pad2_data_length hv
  have h3 : (wireContent v).length = (wireContent v).data.length := rfl
  omega

/-- What a well-formed top-level field must satisfy for the scan to
read it back: a two-character id that is neither empty nor the CRC id,
contents that fit a two-digit length, a scalar value exactly when the
id is not composite, and (for composites) contents whose own scan
finishes within fuel 5. -/
def TopOk (f : Field) : Prop :=
  f.id.data.length = 2 ∧ f.id ≠ "" ∧ f.id ≠ "63" ∧
  (wireContent f.value).length < 100 ∧
  (match f.value with
   | .str _ => f.id ≠ "26" ∧ f.id ≠ "62"
   | .arr subs => (f.id = "26" ∨ f.id = "62") ∧
       (decodeGo 5 (encodeSubs subs).data 0).isSome)

/-- `TopOk` as a boolean check, for evaluation on concrete
documents. -/
def topOkB (f : Field) : Bool :=
  (f.id.data.length == 2) && (f.id != "") && (f.id != "63") &&
  ((wireContent f.value).length < 100 : Bool) &&
  (match f.value with
   | .str _ => (f.id != "26") && (f.id != "62")
   | .arr subs => ((f.id == "26") || (f.id == "62")) &&
       (decodeGo 5 (encodeSubs subs).data 0).isSome)

theorem topOkB_iff (f : Field) : topOkB f = true ↔ TopOk f := by
  cases f with
  | mk i l d v =>
    cases v with
    | str s =>
      simp [topOkB, TopOk, Field.id, Field.value, Bool.and_eq_true,
        beq_iff_eq, bne_iff_ne, decide_eq_true_eq, and_assoc]
    | arr subs =>
      simp [topOkB, TopOk, Field.id, Field.value, Bool.and_eq_true,
        beq_iff_eq, bne_iff_ne, decide_eq_true_eq, and_assoc]

/-- The field that the scan produces for a well-formed encoded field:
same id, recomputed two-digit length, no description, and (for
composites) the scan of the serialized contents. -/
def reDec (f : Field) : Field :=
  match f with
  | .mk id _ _ (.str s) => .mk id (pad2 s.length) none (.str s)
  | .mk id _ _ (.arr subs) =>
    .mk id (pad2 (encodeSubs subs).length) none
      (.arr ((decodeGo 5 (encodeSubs subs).data 0).getD []))

/-- Scanning the encoding of a list of well-formed fields followed by
the CRC tuple returns the re-decoded fields followed by the CRC
field. -/
theorem decodeGo_chain : ∀ (fs : List Field) (f : Nat) (pre crcv : List Char),
    (∀ g ∈ fs, TopOk g) → crcv.length = 4 → fs.length + 7 ≤ f →
    decodeGo f (pre ++ ((encodeBody fs).data ++ ("6304".data ++ crcv))) ↑pre.length
      = some (fs.map reDec ++ [Field.mk "63" "04" none (.str ⟨crcv⟩)]) := by
  intro fs
  induction fs with
  | nil =>
    intro f pre crcv _ hcrc hf
    match f, hf with
    | f' + 1, hf =>
      have h04 : pad2 crcv.length = "04" := by rw [hcrc]; decide
      have hshape : pre ++ ((encodeBody []).data ++ ("6304".data ++ crcv))
          = pre ++ ("63".data ++ ((pad2 crcv.length).data ++ (crcv ++ []))) := by
        rw [h04]
        show pre ++ ([] ++ ("6304".data ++ crcv)) = _
        have h6304 : ("6304" : String).data = "63".data ++ "04".data := rfl
        rw [h6304]
        simp [List.append_assoc]
      rw [decodeGo_step_scalar f' _ pre crcv [] "63" hshape rfl (by decide)
        (by decide) (by omega) (by omega)]
      have hlen : pre.length + 4 + crcv.length
          = (pre ++ ((encodeBody []).data ++ ("6304".data ++ crcv))).length := by
        have : (encodeBody []).data = ([] : List Char) := rfl
        simp [this]
        omega
      rw [hlen]
      match f', hf with
      | f'' + 1, _ =>
        rw [decodeGo_end f'']
        rw [h04]
        rfl
  | cons g gs ih =>
    intro f pre crcv hok hcrc hf
    have hok' : ∀ x ∈ gs, TopOk x := fun x hx => hok x (by simp [hx])
    match f, hf with
    | f' + 1, hf =>
      have hf' : gs.length + 7 ≤ f' := by
        simp only [List.length_cons] at hf
        omega
      have hrlen : (("6304".data ++ crcv) : List Char).length = 8 := by
        simp [hcrc]
      match g, hok g (by simp) with
      | Field.mk gi gl gd (FieldVal.str s), ⟨hid2, hidne, hid63, hlen100, hrest⟩ =>
        simp only [Field.id, Field.value] at hid2 hidne hid63 hlen100 hrest
        simp only [wireContent] at hlen100
        obtain ⟨h26, h62⟩ := hrest
        have hslen : s.length = s.data.length := rfl
        have hbody : encodeBody (Field.mk gi gl gd (FieldVal.str s) :: gs)
            = encodeField gi (FieldVal.str s) ++ encodeBody gs := by
          simp only [encodeBody, Field.id, Field.value]
          rw [if_neg hidne]
        have hshape : pre ++ ((encodeBody (Field.mk gi gl gd (FieldVal.str s) :: gs)).data
              ++ ("6304".data ++ crcv))
            = pre ++ (gi.data ++ ((pad2 s.data.length).data
              ++ (s.data ++ ((encodeBody gs).data ++ ("6304".data ++ crcv))))) := by
          rw [hbody]
          rw [encodeField_wire]
          simp only [wireContent]
          rw [← hslen]
          simp [String.data_append, List.append_assoc]
        rw [decodeGo_step_scalar f' _ pre s.data
          ((encodeBody gs).data ++ ("6304".data ++ crcv)) gi hshape hid2 h26 h62
          (by omega) (by simp only [List.length_append]; omega)]
        have hIH := ih f' (pre ++ (encodeField gi (FieldVal.str s)).data) crcv hok' hcrc
          (by omega)
        have hLL : (pre ++ (encodeField gi (FieldVal.str s)).data)
              ++ ((encodeBody gs).data ++ ("6304".data ++ crcv))
            = pre ++ ((encodeBody (Field.mk gi gl gd (FieldVal.str s) :: gs)).data
              ++ ("6304".data ++ crcv)) := by
          rw [hbody]
          simp [String.data_append, List.append_assoc]
        rw [hLL] at hIH
        have hpre' : (pre ++ (encodeField gi (FieldVal.str s)).data).length
            = pre.length + 4 + s.data.length := by
          have h4 := encodeField_data_length gi (FieldVal.str s) hid2
            (by simp only [wireContent]; omega)
          simp only [wireContent] at h4
          simp [h4]
          omega
        rw [hpre'] at hIH
        rw [hIH]
        simp only [Option.map, List.map, reDec, strMk_data, hslen, List.cons_append]
      | Field.mk gi gl gd (FieldVal.arr subs), ⟨hid2, hidne, hid63, hlen100, hrest⟩ =>
        simp only [Field.id, Field.value] at hid2 hidne hid63 hlen100 hrest
        simp only [wireContent] at hlen100
        obtain ⟨hcomp, hsome⟩ := hrest
        obtain ⟨ds, hds⟩ := Option.isSome_iff_exists.mp hsome
        have hds' : decodeGo f' (encodeSubs subs).data 0 = some ds :=
          decodeGo_mono 5 f' _ _ _ (by omega) hds
        have hclen : (encodeSubs subs).length = (encodeSubs subs).data.length := rfl
        have hbody : encodeBody (Field.mk gi gl gd (FieldVal.arr subs) :: gs)
            = encodeField gi (FieldVal.arr subs) ++ encodeBody gs := by
          simp only [encodeBody, Field.id, Field.value]
          rw [if_neg hidne]
        have hshape : pre ++ ((encodeBody (Field.mk gi gl gd (FieldVal.arr subs) :: gs)).data
              ++ ("6304".data ++ crcv))
            = pre ++ (gi.data ++ ((pad2 (encodeSubs subs).data.length).data
              ++ ((encodeSubs subs).data
                ++ ((encodeBody gs).data ++ ("6304".data ++ crcv))))) := by
          rw [hbody]
          rw [encodeField_wire]
          simp only [wireContent]
          rw [← hclen]
          simp [String.data_append, List.append_assoc]
        rw [decodeGo_step_composite f' _ pre (encodeSubs subs).data
          ((encodeBody gs).data ++ ("6304".data ++ crcv)) gi ds hshape hid2 hcomp
          (by omega) (by simp only [List.length_append]; omega) hds']
        have hIH := ih f' (pre ++ (encodeField gi (FieldVal.arr subs)).data) crcv hok' hcrc
          (by omega)
        have hLL : (pre ++ (encodeField gi (FieldVal.arr subs)).data)
              ++ ((encodeBody gs).data ++ ("6304".data ++ crcv))
            = pre ++ ((encodeBody (Field.mk gi gl gd (FieldVal.arr subs) :: gs)).data
              ++ ("6304".data ++ crcv)) := by
          rw [hbody]
          simp [String.data_append, List.append_assoc]
        rw [hLL] at hIH
        have hpre' : (pre ++ (encodeField gi (FieldVal.arr subs)).data).length
            = pre.length + 4 + (encodeSubs subs).data.length := by
          have h4 := encodeField_data_length gi (FieldVal.arr subs) hid2
            (by simp only [wireContent]; omega)
          simp only [wireContent] at h4
          simp [h4]
          omega
        rw [hpre'] at hIH
        rw [hIH]
        simp only [Option.map, List.map, reDec, hds, Option.getD, hclen, List.cons_append]

/-! ## Scanning serialized subfield lists -/

/-- What a well-formed subfield must satisfy for the nested scan to
read it back: a two-character, non-composite, nonempty id and nonempty
contents that fit a two-digit length. -/
def SubOk (x : Field) : Prop :=
  x.id.data.length = 2 ∧ x.id ≠ "" ∧ x.id ≠ "26" ∧ x.id ≠ "62" ∧
  0 < (subValueStr x.value).length ∧ (subValueStr x.value).length < 100

/-- `SubOk` as a boolean check, for evaluation on concrete
documents. -/
def subOkB (x : Field) : Bool :=
  (x.id.data.length == 2) && (x.id != "") && (x.id != "26") && (x.id != "62") &&
  (0 < (subValueStr x.value).length : Bool) && ((subValueStr x.value).length < 100 : Bool)

theorem subOkB_iff (x : Field) : subOkB x = true ↔ SubOk x := by
  simp [subOkB, SubOk, Bool.and_eq_true, beq_iff_eq, bne_iff_ne,
    decide_eq_true_eq, and_assoc]

/-- The field that the nested scan produces for a well-formed
subfield: same id, recomputed length, scalar serialized contents. -/
def subDec (x : Field) : Field :=
  Field.mk x.id (pad2 (subValueStr x.value).length) none (.str (subValueStr x.value))

/-- Scanning a serialized subfield list returns the re-decoded
subfields (there is no CRC tuple at this level, so the scan ends
exactly at the end of the contents). -/
theorem decodeGo_subchain : ∀ (subs : List Field) (f : Nat) (pre : List Char),
    (∀ x ∈ subs, SubOk x) → subs.length + 1 ≤ f →
    decodeGo f (pre ++ (encodeSubs subs).data) ↑pre.length
      = some (subs.map subDec) := by
  intro subs
  induction subs with
  | nil =>
    intro f pre _ hf
    match f, hf with
    | f' + 1, _ =>
      have h : pre ++ (encodeSubs []).data = pre := by
        show pre ++ [] = pre
        simp
      rw [h]
      exact decodeGo_end f' pre
  | cons x rest ih =>
    intro f pre hok hf
    match x, hok x (by simp) with
    | Field.mk xi xl xd xv, ⟨hid2, hidne, h26, h62, hpos, hlen⟩ =>
      simp only [Field.id, Field.value] at hid2 hidne h26 h62 hpos hlen
      match f, hf with
      | f' + 1, hf =>
        have hok' : ∀ y ∈ rest, SubOk y := fun y hy => hok y (by simp [hy])
        have hf' : rest.length + 1 ≤ f' := by
          simp only [List.length_cons] at hf
          omega
        have hvlen : (subValueStr xv).length = (subValueStr xv).data.length := rfl
        have hcontrib : encodeSubs (Field.mk xi xl xd xv :: rest)
            = (xi ++ pad2 (subValueStr xv).length ++ subValueStr xv) ++ encodeSubs rest := by
          simp only [encodeSubs]
          rw [if_neg hidne]
        have hshape : pre ++ (encodeSubs (Field.mk xi xl xd xv :: rest)).data
            = pre ++ (xi.data ++ ((pad2 (subValueStr xv).data.length).data
              ++ ((subValueStr xv).data ++ (encodeSubs rest).data))) := by
          rw [hcontrib, ← hvlen]
          simp [String.data_append, List.append_assoc]
        rw [decodeGo_step_scalar f' _ pre (subValueStr xv).data
          (encodeSubs rest).data xi hshape hid2 h26 h62 (by omega) (by omega)]
        have hIH := ih f' (pre ++ (xi ++ pad2 (subValueStr xv).length ++ subValueStr xv).data)
          hok' hf'
        have hLL : (pre ++ (xi ++ pad2 (subValueStr xv).length ++ subValueStr xv).data)
              ++ (encodeSubs rest).data
            = pre ++ (encodeSubs (Field.mk xi xl xd xv :: rest)).data := by
          rw [hcontrib]
          simp [String.data_append, List.append_assoc]
        rw [hLL] at hIH
        have hpre' : (pre ++ (xi ++ pad2 (subValueStr xv).length ++ subValueStr xv).data).length
            = pre.length + 4 + (subValueStr xv).data.length := by
          simp only [List.length_append, String.data_append]
          have h2 : (pad2 (subValueStr xv).length).data.length = 2 := pad2_data_length hlen
          omega
        rw [hpre'] at hIH
        rw [hIH]
        simp only [Option.map, List.map, subDec, Field.id, Field.value, strMk_data, hvlen]

/-- The nested scan of a serialized subfield list at fuel 5 (enough
for up to four subfields). -/
theorem decodeSubs_eq (subs : List Field) (hok : ∀ x ∈ subs, SubOk x)
    (hlen : subs.length ≤ 4) :
    decodeGo 5 (encodeSubs subs).data 0 = some (subs.map subDec) := by
  have h := decodeGo_subchain subs 5 [] hok (by omega)
  simpa using h

/-! ## The annotation pass changes only descriptions -/

theorem annotateSub_parts (p : String) (x : Field) :
    (annotateSub p x).id = x.id ∧ (annotateSub p x).lengthStr = x.lengthStr ∧
    (annotateSub p x).value = x.value := by
  cases x with
  | mk i l d v =>
    simp only [annotateSub]
    split_ifs <;> simp [Field.id, Field.lengthStr, Field.value]

theorem encodeGrands_map_annotateSub (p : String) (gs : List Field) :
    encodeGrands (gs.map (annotateSub p)) = encodeGrands gs := by
  induction gs with
  | nil => rfl
  | cons g rest ih =>
    cases g with
    | mk i l d v =>
      simp only [List.map, encodeGrands]
      have h := annotateSub_parts p (Field.mk i l d v)
      match hx : annotateSub p (Field.mk i l d v), h with
      | Field.mk i' l' d' v', ⟨h1, h2, h3⟩ =>
        simp only [Field.id, Field.value] at h1 h3
        subst h1
        subst h3
        simp only [encodeGrands, ih]

theorem fieldSig_annotateField (f : Field) :
    fieldSig (annotateField f) = fieldSig f := by
  cases f with
  | mk i l d v =>
    cases v with
    | str s => simp [annotateField, fieldSig, Field.id, Field.value]
    | arr subs =>
      simp [annotateField, fieldSig, Field.id, Field.value, subValueStr,
        encodeGrands_map_annotateSub]

theorem annotate_map_fieldSig (l : List Field) :
    (annotate l).map fieldSig = l.map fieldSig := by
  unfold annotate
  rw [List.map_map]
  exact List.map_congr_left (fun f _ => fieldSig_annotateField f)

/-! ## Decoding an encoded document -/

theorem str_ne_empty {s : String} (h : 0 < s.length) : s ≠ "" := by
  intro he
  rw [he] at h
  simp at h

theorem strTake_append (a b : String) : strTake (a ++ b) a.data.length = a := by
  unfold strTake
  rw [String.data_append, List.take_left]

theorem strDrop_append (a b : String) : strDrop (a ++ b) a.data.length = b := by
  unfold strDrop
  rw [String.data_append, List.drop_left]

theorem encodeBody_length_ge (fs : List Field) (hok : ∀ f ∈ fs, TopOk f) :
    4 * fs.length ≤ (encodeBody fs).length := by
  induction fs with
  | nil => simp
  | cons g gs ih =>
    obtain ⟨hid2, hidne, _, hlen100, _⟩ := hok g (by simp)
    have ih' := ih (fun x hx => hok x (by simp [hx]))
    have hbody : encodeBody (g :: gs)
        = encodeField g.id g.value ++ encodeBody gs := by
      simp only [encodeBody]
      rw [if_neg hidne]
    have hfl := encodeField_data_length g.id g.value hid2 hlen100
    have h1 : (encodeField g.id g.value ++ encodeBody gs).length
        = (encodeField g.id g.value).data.length + (encodeBody gs).length := by
      simp [String.length_append]
    rw [hbody, h1, hfl]
    simp only [List.length_cons]
    omega

/-- Decoding an encoding of a document of well-formed fields: the CRC
check passes and the annotated scan result comes back. -/
theorem decode_encode (d : PixData) (hok : ∀ f ∈ d.value, TopOk f) :
    PixCodec.decode (PixCodec.encode d)
      = .returns [("value",
          annotate (d.value.map reDec
            ++ [Field.mk "63" "04" none
                (.str (calculateCRC16 (encodeBody d.value ++ "6304")))]))] := by
  have hfilter : d.value.filter (fun f => f.id ≠ "63") = d.value := by
    rw [List.filter_eq_self]
    intro f hf
    obtain ⟨_, _, h63, _, _⟩ := hok f hf
    simpa using h63
  have hcrc4 : (calculateCRC16 (encodeBody d.value ++ "6304")).data.length = 4 :=
    calculateCRC16_length (encodeBody d.value ++ "6304")
  set withId := encodeBody d.value ++ "6304" with hwithId
  set crc := calculateCRC16 withId with hcrc
  have hs : PixCodec.encode d = withId ++ crc := by
    unfold PixCodec.encode
    rw [hfilter]
  have hslen : (withId ++ crc).length = withId.data.length + 4 := by
    simp [String.length_append]
    have h1 : withId.length = withId.data.length := rfl
    have h2 : crc.length = crc.data.length := rfl
    omega
  have hne : withId ++ crc ≠ "" := by
    apply str_ne_empty
    rw [hslen]
    omega
  rw [hs]
  unfold PixCodec.decode
  rw [if_neg (by exact hne)]
  rw [show (withId ++ crc).length - 4 = withId.data.length by omega]
  rw [strTake_append, strDrop_append]
  rw [if_neg (by
    intro hne'
    exact hne' (by rw [hcrc]))]
  have hfields : decodeFields (withId ++ crc)
      = some (d.value.map reDec
          ++ [Field.mk "63" "04" none (.str crc)]) := by
    unfold decodeFields
    have hdata : (withId ++ crc).data
        = [] ++ ((encodeBody d.value).data ++ ("6304".data ++ crc.data)) := by
      simp [hwithId, String.data_append]
    rw [hdata]
    have hfuel : d.value.length + 7 ≤ (withId ++ crc).length + 1 := by
      have hb := encodeBody_length_ge d.value hok
      rw [hslen]
      have h1 : withId.data.length = (encodeBody d.value).length + 4 := by
        rw [hwithId]
        simp [String.length_append]
      omega
    have h := decodeGo_chain d.value ((withId ++ crc).length + 1) [] crc.data hok
      hcrc4 hfuel
    rw [List.nil_append, List.length_nil, Nat.cast_zero] at h
    rw [List.nil_append]
    rw [h, strMk_data]
  rw [hfields]

/-! ## The CRC algorithm as the specification words it -/

/-- Modelled from the spec (4.1): one CCITT-FALSE round in plain
arithmetic — if the top bit of the register is set, shift left and XOR
the polynomial, else shift left; mask to 16 bits after every shift. -/
def ccittStep (r : Nat) : Nat :=
  if r / 2 ^ 15 % 2 = 1 then ((r * 2) ^^^ 4129) % 65536 else (r * 2) % 65536

/-- Modelled from the spec (4.1): absorb one code unit — XOR it into
the high byte of the register, then run eight MSB-first rounds. -/
def ccittByte (c r : Nat) : Nat :=
  Nat.iterate ccittStep 8 (r ^^^ c * 256)

/-- Modelled from the spec (4.1): CRC-16/CCITT-FALSE with initial
register `0xFFFF` over the string's code units. -/
def ccittFalse (s : String) : Nat :=
  s.data.foldl (fun r c => ccittByte c.toNat r) 65535

/-- Modelled from the spec (4.1): an uppercase hexadecimal digit. -/
def specHexDigit (n : Nat) : Char :=
  if n < 10 then Char.ofNat (48 + n) else Char.ofNat (55 + n)

/-- Modelled from the spec (4.1): the final register value formatted
as 4 hex digits, uppercase, zero-padded on the left. -/
def specHex4 (n : Nat) : String :=
  ⟨[specHexDigit (n / 4096 % 16), specHexDigit (n / 256 % 16),
    specHexDigit (n / 16 % 16), specHexDigit (n % 16)]⟩

theorem crcRound_eq_ccittStep (r : Nat) : crcRound r = ccittStep r := by
  unfold crcRound ccittStep
  have hbit : (r &&& 0x8000 ≠ 0) ↔ (r / 2 ^ 15 % 2 = 1) := by
    rw [show (0x8000 : Nat) = 2 ^ 15 from rfl, Nat.and_two_pow,
      Nat.testBit_to_div_mod]
    rcases Nat.mod_two_eq_zero_or_one (r / 2 ^ 15) with h | h <;> simp [h]
  have hshift : r <<< 1 = r * 2 := by
    rw [Nat.shiftLeft_eq]
  have hmask : ∀ x : Nat, x &&& 0xffff = x % 65536 := by
    intro x
    have := Nat.and_pow_two_sub_one_eq_mod x 16
    norm_num at this
    exact this
  by_cases h : r / 2 ^ 15 % 2 = 1
  · rw [if_pos (hbit.mpr h), if_pos h, hshift, hmask]
  · rw [if_neg (fun hc => h (hbit.mp hc)), if_neg h, hshift, hmask]

theorem crcChar_eq_ccittByte (crc : Nat) (c : Char) :
    crcChar crc c = ccittByte c.toNat crc := by
  unfold crcChar ccittByte
  have hx : crc ^^^ (c.toNat <<< 8) = crc ^^^ c.toNat * 256 := by
    rw [Nat.shiftLeft_eq]
  rw [hx]
  have hiter : ∀ (n : Nat) (x : Nat),
      (List.range n).foldl (fun acc _ => crcRound acc) x = Nat.iterate ccittStep n x := by
    intro n
    induction n with
    | zero => intro x; rfl
    | succ n ih =>
      intro x
      rw [List.range_succ, List.foldl_concat, ih, crcRound_eq_ccittStep,
        Function.iterate_succ_apply']
  exact hiter 8 _

theorem crcFold_eq_ccittFalse (s : String) : crcFold s.data = ccittFalse s := by
  unfold crcFold ccittFalse
  have h : ∀ (l : List Char) (a : Nat),
      l.foldl crcChar a = l.foldl (fun r c => ccittByte c.toNat r) a := by
    intro l
    induction l with
    | nil => intro a; rfl
    | cons c t ih => intro a; simp only [List.foldl]; rw [crcChar_eq_ccittByte, ih]
  exact h s.data 0xffff

theorem natHexReprAux_small (f m : Nat) (h : m < 16) :
    natHexReprAux (f + 1) m = [hexChar m] := by
  rw [natHexReprAux, if_pos h]

theorem natHexReprAux_step (f m : Nat) (h : ¬ m < 16) :
    natHexReprAux (f + 1) m = natHexReprAux f (m / 16) ++ [hexChar (m % 16)] := by
  rw [natHexReprAux, if_neg h]

theorem natHexReprAux_small2 (f m : Nat) (hf : 1 ≤ f) (h : m < 16) :
    natHexReprAux f m = [hexChar m] := by
  match f, hf with
  | f' + 1, _ => exact natHexReprAux_small f' m h

theorem natHexReprAux_step2 (f m : Nat) (hf : 1 ≤ f) (h : ¬ m < 16) :
    natHexReprAux f m = natHexReprAux (f - 1) (m / 16) ++ [hexChar (m % 16)] := by
  match f, hf with
  | f' + 1, _ => exact natHexReprAux_step f' m h

theorem toUpper_hexChar (d : Nat) (h : d < 16) :
    Char.toUpper (hexChar d) = specHexDigit d := by
  revert h
  revert d
  decide

/-- The source rendering (lowercase hex, uppercased, padded to 4)
agrees with the spec's fixed four-digit uppercase rendering on every
16-bit value. -/
theorem hex4_eq_specHex4 (v : Nat) (hv : v < 65536) :
    padStart (upperStr (natHexRepr v)) 4 '0' = specHex4 v := by
  have hchars : ∀ d, d < 16 → Char.toUpper (hexChar d) = specHexDigit d :=
    toUpper_hexChar
  by_cases h1 : v < 16
  · have e : natHexRepr v = ⟨[hexChar v]⟩ := by
      show (⟨natHexReprAux (v + 1) v⟩ : String) = _
      rw [natHexReprAux_small v v h1]
    rw [e]
    show (⟨List.replicate (4 - 1) '0' ++ [Char.toUpper (hexChar v)]⟩ : String) = _
    rw [hchars v h1]
    unfold specHex4
    have hz : v / 4096 % 16 = 0 := by omega
    have hz2 : v / 256 % 16 = 0 := by omega
    have hz3 : v / 16 % 16 = 0 := by omega
    have hv16 : v % 16 = v := by omega
    rw [hz, hz2, hz3, hv16]
    rfl
  · by_cases h2 : v < 256
    · have e : natHexRepr v = ⟨[hexChar (v / 16), hexChar (v % 16)]⟩ := by
        show (⟨natHexReprAux (v + 1) v⟩ : String) = _
        rw [natHexReprAux_step v v h1,
          natHexReprAux_small2 v (v / 16) (by omega) (by omega)]
        rfl
      rw [e]
      show (⟨List.replicate (4 - 2) '0'
        ++ [Char.toUpper (hexChar (v / 16)), Char.toUpper (hexChar (v % 16))]⟩ : String) = _
      rw [hchars _ (by omega), hchars _ (by omega)]
      unfold specHex4
      have hz : v / 4096 % 16 = 0 := by omega
      have hz2 : v / 256 % 16 = 0 := by omega
      have hd : v / 16 % 16 = v / 16 := by omega
      rw [hz, hz2, hd]
      rfl
    · by_cases h3 : v < 4096
      · have e : natHexRepr v
            = ⟨[hexChar (v / 256), hexChar (v / 16 % 16), hexChar (v % 16)]⟩ := by
          show (⟨natHexReprAux (v + 1) v⟩ : String) = _
          rw [natHexReprAux_step v v h1,
            natHexReprAux_step2 v (v / 16) (by omega) (by omega),
            natHexReprAux_small2 (v - 1) (v / 16 / 16) (by omega) (by omega),
            show v / 16 / 16 = v / 256 by omega]
          rfl
        rw [e]
        show (⟨List.replicate (4 - 3) '0'
          ++ [Char.toUpper (hexChar (v / 256)), Char.toUpper (hexChar (v / 16 % 16)),
              Char.toUpper (hexChar (v % 16))]⟩ : String) = _
        rw [hchars _ (by omega), hchars _ (by omega), hchars _ (by omega)]
        unfold specHex4
        have hz : v / 4096 % 16 = 0 := by omega
        have hd : v / 256 % 16 = v / 256 := by omega
        rw [hz, hd]
        rfl
      · have e : natHexRepr v
            = ⟨[hexChar (v / 4096), hexChar (v / 256 % 16),
                hexChar (v / 16 % 16), hexChar (v % 16)]⟩ := by
          show (⟨natHexReprAux (v + 1) v⟩ : String) = _
          rw [natHexReprAux_step v v h1,
            natHexReprAux_step2 v (v / 16) (by omega) (by omega),
            natHexReprAux_step2 (v - 1) (v / 16 / 16) (by omega) (by omega),
            natHexReprAux_small2 (v - 1 - 1) (v / 16 / 16 / 16) (by omega) (by omega),
            show v / 16 / 16 = v / 256 by omega,
            show v / 256 / 16 = v / 4096 by omega]
          rfl
        rw [e]
        show (⟨List.replicate (4 - 4) '0'
          ++ [Char.toUpper (hexChar (v / 4096)), Char.toUpper (hexChar (v / 256 % 16)),
              Char.toUpper (hexChar (v / 16 % 16)), Char.toUpper (hexChar (v % 16))]⟩ : String) = _
        rw [hchars _ (by omega), hchars _ (by omega), hchars _ (by omega), hchars _ (by omega)]
        unfold specHex4
        have hd : v / 4096 % 16 = v / 4096 := by omega
        rw [hd]
        rfl

/-- The source CRC renderer equals the spec's algorithm end to end. -/
theorem calculateCRC16_eq_spec (s : String) :
    calculateCRC16 s = specHex4 (ccittFalse s) := by
  unfold calculateCRC16
  rw [crcFold_eq_ccittFalse]
  exact hex4_eq_specHex4 _ (by rw [← crcFold_eq_ccittFalse]; exact crcFold_lt s.data)

/-! ## Freshly scanned fields carry no description -/

theorem decodeGo_noDesc : ∀ (f : Nat) (l : List Char) (pos : Int)
    (res : List Field), decodeGo f l pos = some res → ∀ x ∈ res,
    x.description = none ∧
    (match x.value with
     | .arr subs => ∀ y ∈ subs, y.description = none
     | .str _ => True) := by
  intro f
  induction f with
  | zero => intro l pos res h; simp [decodeGo] at h
  | succ f ih =>
    intro l pos res h
    rw [decodeGo] at h
    by_cases hc : pos + 4 < (l.length : Int)
    · rw [if_pos hc] at h
      cases hpi : parseIntJs (jsSubstr l (pos + 2) 2) with
      | some len =>
        simp only [hpi] at h
        by_cases hcomp : (⟨jsSubstr l pos 2⟩ : String) = "26" ∨
            (⟨jsSubstr l pos 2⟩ : String) = "62"
        · rw [if_pos hcomp] at h
          cases hs : decodeGo f (jsSubstr l (pos + 4) len) 0 with
          | none => simp [hs] at h
          | some subs =>
            cases hk : decodeGo f l (pos + 4 + len) with
            | none => simp [hs, hk] at h
            | some fs =>
              simp only [hs, hk, Option.bind, Option.map] at h
              injection h with h
              subst h
              intro x hx
              rcases List.mem_cons.mp hx with rfl | hx'
              · refine ⟨rfl, ?_⟩
                simp only [Field.value]
                intro y hy
                exact (ih _ _ _ hs y hy).1
              · exact ih _ _ _ hk x hx'
        · rw [if_neg hcomp] at h
          cases hk : decodeGo f l (pos + 4 + len) with
          | none => simp [hk] at h
          | some fs =>
            simp only [hk, Option.map] at h
            injection h with h
            subst h
            intro x hx
            rcases List.mem_cons.mp hx with rfl | hx'
            · exact ⟨rfl, trivial⟩
            · exact ih _ _ _ hk x hx'
      | none =>
        simp only [hpi] at h
        by_cases hcomp : (⟨jsSubstr l pos 2⟩ : String) = "26" ∨
            (⟨jsSubstr l pos 2⟩ : String) = "62"
        · rw [if_pos hcomp] at h
          cases hs : decodeGo f [] 0 with
          | none => simp [hs] at h
          | some subs =>
            simp only [hs, Option.map] at h
            injection h with h
            subst h
            intro x hx
            rcases List.mem_cons.mp hx with rfl | hx'
            · refine ⟨rfl, ?_⟩
              simp only [Field.value]
              intro y hy
              exact (ih _ _ _ hs y hy).1
            · simp at hx'
        · rw [if_neg hcomp] at h
          injection h with h
          subst h
          intro x hx
          rcases List.mem_cons.mp hx with rfl | hx'
          · exact ⟨rfl, trivial⟩
          · simp at hx'
    · rw [if_neg hc] at h
      by_cases hc2 : pos < (l.length : Int)
      · rw [if_pos hc2] at h
        injection h with h
        subst h
        intro x hx
        rcases List.mem_cons.mp hx with rfl | hx'
        · exact ⟨rfl, trivial⟩
        · simp at hx'
      · rw [if_neg hc2] at h
        injection h with h
        subst h
        intro x hx
        simp at hx

/-- The subfield labels attached by the annotation pass, as a function
of the parent and subfield ids. -/
def subDescription (parentId subId : String) : Option String :=
  if parentId = "26" then
    if subId = "00" then some "GUI"
    else if subId = "01" then some "Key"
    else none
  else if parentId = "62" then
    if subId = "05" then some "Transaction ID"
    else if subId = "50" then some "Payment system specific template"
    else none
  else none

theorem annotate_desc (l : List Field)
    (hl : ∀ x ∈ l, x.description = none ∧
      (match x.value with
       | .arr subs => ∀ y ∈ subs, y.description = none
       | .str _ => True)) :
    ∀ f ∈ annotate l, f.description = descriptionsMap f.id ∧
      (match f.value with
       | .arr subs => ∀ y ∈ subs, y.description = subDescription f.id y.id
       | .str _ => True) := by
  intro f hf
  rcases List.mem_map.mp hf with ⟨x, hx, rfl⟩
  obtain ⟨hd, hv⟩ := hl x hx
  cases x with
  | mk i ln d v =>
    simp only [Field.description] at hd
    subst hd
    cases v with
    | str s =>
      refine ⟨?_, trivial⟩
      show (annotateField (Field.mk i ln none (FieldVal.str s))).description
        = descriptionsMap (annotateField (Field.mk i ln none (FieldVal.str s))).id
      unfold annotateField
      cases hdm : descriptionsMap i <;>
        simp [hdm, Field.description, Field.id]
    | arr subs =>
      constructor
      · show (annotateField (Field.mk i ln none (FieldVal.arr subs))).description
          = descriptionsMap (annotateField (Field.mk i ln none (FieldVal.arr subs))).id
        unfold annotateField
        cases hdm : descriptionsMap i <;>
          simp [hdm, Field.description, Field.id]
      · show match (annotateField (Field.mk i ln none (FieldVal.arr subs))).value with
          | .arr subs' => ∀ y ∈ subs',
              y.description
                = subDescription (annotateField (Field.mk i ln none (FieldVal.arr subs))).id y.id
          | .str _ => True
        unfold annotateField
        cases hdm : descriptionsMap i <;>
        · simp only [hdm, Field.value, Field.id]
          intro y hy
          rcases List.mem_map.mp hy with ⟨z, hz, rfl⟩
          have hz0 : z.description = none := hv z hz
          cases z with
          | mk zi zl zd zv =>
            simp only [Field.description] at hz0
            subst hz0
            unfold annotateSub subDescription
            by_cases h26 : i = "26"
            · by_cases hz0 : zi = "00"
              · simp [h26, hz0, Field.description, Field.id]
              · by_cases hz1 : zi = "01" <;>
                  simp [h26, hz0, hz1, Field.description, Field.id]
            · by_cases h62 : i = "62"
              · by_cases hz5 : zi = "05"
                · simp [h26, h62, hz5, Field.description, Field.id]
                · by_cases hz50 : zi = "50" <;>
                    simp [h26, h62, hz5, hz50, Field.description, Field.id]
              · simp [h26, h62, Field.description, Field.id]

/-! ## The two-decimal shape of the formatted amount -/

theorem str_pos {s : String} (h : s ≠ "") : 0 < s.length := by
  cases s with
  | mk data =>
    cases data with
    | nil => exact absurd rfl h
    | cons c t => simp [String.length]

/-- Whether a string is exactly two decimal digit characters. -/
def twoDigitB (t : String) : Bool :=
  match t.data with
  | [a, b] => a.isDigit && b.isDigit
  | _ => false

theorem twoDigit_pad : ∀ m, m < 100 →
    twoDigitB (padStart (natRepr m) 2 '0') = true := by
  decide

/-- Whether amount parsing found at least one digit (`parseFloat`
would not give `NaN`). -/
def decNumeral (s : String) : Bool := (decParse s).isSome

/-- Whether the string ends in a dot followed by exactly two decimal
digits. -/
def twoDecimalTail (t : String) : Bool :=
  match t.data.reverse with
  | d0 :: d1 :: c :: _ => d1.isDigit && d0.isDigit && c = '.'
  | _ => false

theorem toFixed2_twoDec (s : String) (h : decNumeral s = true) :
    twoDecimalTail (toFixed2 s) = true := by
  unfold decNumeral at h
  cases hp : decParse s with
  | none => rw [hp] at h; simp at h
  | some pr =>
    obtain ⟨intDigits, fracDigits⟩ := pr
    unfold toFixed2
    rw [hp]
    set scaled := (2 * (natFromDigits intDigits * 100 * 10 ^ fracDigits.length
      + 100 * natFromDigits fracDigits) + 10 ^ fracDigits.length)
      / (2 * 10 ^ fracDigits.length) with hscaled
    have hB := twoDigit_pad (scaled % 100) (Nat.mod_lt _ (by norm_num))
    unfold twoDigitB at hB
    unfold twoDecimalTail
    cases hd : (padStart (natRepr (scaled % 100)) 2 '0').data with
    | nil => rw [hd] at hB; simp at hB
    | cons a t =>
      cases t with
      | nil => rw [hd] at hB; simp at hB
      | cons b t2 =>
        cases t2 with
        | nil =>
          rw [hd] at hB
          simp only [String.data_append, hd]
          have hrev : ((natRepr (scaled / 100)).data ++ ("." : String).data
              ++ [a, b]).reverse = b :: a :: '.' :: (natRepr (scaled / 100)).data.reverse := by
            simp
          rw [hrev]
          simp at hB
          simp [hB]
        | cons c t3 => rw [hd] at hB; simp at hB

/-! ## Stripped keys are all digits -/

theorem stripNonDigits_all (s : String) :
    (stripNonDigits s).data.all Char.isDigit = true := by
  rw [List.all_eq_true]
  intro a ha
  exact (List.mem_filter.mp ha).2

theorem digitsExactly_strip (n : Nat) (s : String) :
    digitsExactly n (stripNonDigits s) = ((stripNonDigits s).data.length == n) := by
  unfold digitsExactly
  rw [stripNonDigits_all]
  simp

/-! ## Concrete data and observation helpers for the claims -/

/-- The end-to-end vector from the test suite. -/
def finalKey : String :=
  "00020126360014BR.GOV.BCB.PIX0114234842250001665204000053039865406123.455802BR5907WISEFOX6014BELO HORIZONTE62450507ref123450300017BR.GOV.BCB.BRCODE01051.0.063040D3F"

/-- The payment parameters of the end-to-end vector. -/
def samplePayment : PaymentParams :=
  { key := some "23484225000166", merchantName := some "WISEFOX",
    merchantCity := some "BELO HORIZONTE", amount := some "123.45",
    transactionId := some "ref1234" }

/-- The keys of the object a successful decode returns. -/
def decodedKeys (s : String) : List String :=
  match PixCodec.decode s with
  | .returns obj => obj.map Prod.fst
  | _ => []

/-- The object a successful decode returns (`[]` otherwise). -/
def decodedObj (s : String) : PixCodec.DecodedObj :=
  match PixCodec.decode s with
  | .returns obj => obj
  | _ => []

/-- A parsed length of `-4` leaves the scan position unchanged, so no
amount of fuel finishes the scan: the source loop runs forever. -/
theorem decodeGo_dash4 (f : Nat) : decodeGo f "00-4XXXXX".data 0 = none := by
  induction f with
  | zero => rfl
  | succ f ih =>
    rw [decodeGo]
    rw [if_pos (by decide)]
    have hpi : parseIntJs (jsSubstr "00-4XXXXX".data ((0 : Int) + 2) 2)
        = some (-4) := by decide
    simp only [hpi]
    rw [if_neg (by decide)]
    rw [show (0 : Int) + 4 + -4 = 0 by decide]
    rw [ih]
    rfl

set_option maxRecDepth 3000

/-! ## Chunked evaluation of the two concrete checksums -/
theorem crcMainChunk0 : List.foldl crcChar 65535 "00020126360014BR.GOV".data = 5748 := by decide
theorem crcMainChunk1 : List.foldl crcChar 5748 ".BCB.PIX011423484225".data = 59950 := by decide
theorem crcMainChunk2 : List.foldl crcChar 59950 "00016652040000530398".data = 20685 := by decide
theorem crcMainChunk3 : List.foldl crcChar 20685 "65406123.455802BR590".data = 57890 := by decide
theorem crcMainChunk4 : List.foldl crcChar 57890 "7WISEFOX6014BELO HOR".data = 29049 := by decide
theorem crcMainChunk5 : List.foldl crcChar 29049 "IZONTE62450507ref123".data = 45850 := by decide
theorem crcMainChunk6 : List.foldl crcChar 45850 "450300017BR.GOV.BCB.".data = 50052 := by decide
theorem crcMainChunk7 : List.foldl crcChar 50052 "BRCODE01051.0.06304".data = 3391 := by decide
theorem crcMainSplit : ("00020126360014BR.GOV.BCB.PIX0114234842250001665204000053039865406123.455802BR5907WISEFOX6014BELO HORIZONTE62450507ref123450300017BR.GOV.BCB.BRCODE01051.0.06304" : String).data = "00020126360014BR.GOV".data ++ ".BCB.PIX011423484225".data ++ "00016652040000530398".data ++ "65406123.455802BR590".data ++ "7WISEFOX6014BELO HOR".data ++ "IZONTE62450507ref123".data ++ "450300017BR.GOV.BCB.".data ++ "BRCODE01051.0.06304".data := by decide
theorem crcMainFold : crcFold ("00020126360014BR.GOV.BCB.PIX0114234842250001665204000053039865406123.455802BR5907WISEFOX6014BELO HORIZONTE62450507ref123450300017BR.GOV.BCB.BRCODE01051.0.06304" : String).data = 3391 := by
  unfold crcFold
  rw [crcMainSplit]
  rw [List.foldl_append, List.foldl_append, List.foldl_append, List.foldl_append, List.foldl_append, List.foldl_append, List.foldl_append]
  rw [crcMainChunk0]
  rw [crcMainChunk1]
  rw [crcMainChunk2]
  rw [crcMainChunk3]
  rw [crcMainChunk4]
  rw [crcMainChunk5]
  rw [crcMainChunk6]
  rw [crcMainChunk7]

theorem crcMainCRC : calculateCRC16 "00020126360014BR.GOV.BCB.PIX0114234842250001665204000053039865406123.455802BR5907WISEFOX6014BELO HORIZONTE62450507ref123450300017BR.GOV.BCB.BRCODE01051.0.06304" = "0D3F" := by
  unfold calculateCRC16
  rw [crcMainFold]
  decide

theorem crcCEChunk0 : List.foldl crcChar 65535 "000201261000014BR.GO".data = 4405 := by decide
theorem crcCEChunk1 : List.foldl crcChar 4405 "V.BCB.PIX0178AAAAAAA".data = 34836 := by decide
theorem crcCEChunk2 : List.foldl crcChar 34836 "AAAAAAAAAAAAAAAAAAAA".data = 19407 := by decide
theorem crcCEChunk3 : List.foldl crcChar 19407 "AAAAAAAAAAAAAAAAAAAA".data = 17234 := by decide
theorem crcCEChunk4 : List.foldl crcChar 17234 "AAAAAAAAAAAAAAAAAAAA".data = 23105 := by decide
theorem crcCEChunk5 : List.foldl crcChar 23105 "AAAAAAAAAAA520400005".data = 59328 := by decide
theorem crcCEChunk6 : List.foldl crcChar 59328 "3039865802BR5901N600".data = 23077 := by decide
theorem crcCEChunk7 : List.foldl crcChar 23077 "1C6304".data = 44068 := by decide
theorem crcCESplit : ("000201261000014BR.GOV.BCB.PIX0178AAAAAAAAAAAAAAAAAAAAAAAAAAAAAAAAAAAAAAAAAAAAAAAAAAAAAAAAAAAAAAAAAAAAAAAAAAAAAA5204000053039865802BR5901N6001C6304" : String).data = "000201261000014BR.GO".data ++ "V.BCB.PIX0178AAAAAAA".data ++ "AAAAAAAAAAAAAAAAAAAA".data ++ "AAAAAAAAAAAAAAAAAAAA".data ++ "AAAAAAAAAAAAAAAAAAAA".data ++ "AAAAAAAAAAA520400005".data ++ "3039865802BR5901N600".data ++ "1C6304".data := by decide
theorem crcCEFold : crcFold ("000201261000014BR.GOV.BCB.PIX0178AAAAAAAAAAAAAAAAAAAAAAAAAAAAAAAAAAAAAAAAAAAAAAAAAAAAAAAAAAAAAAAAAAAAAAAAAAAAAA5204000053039865802BR5901N6001C6304" : String).data = 44068 := by
  unfold crcFold
  rw [crcCESplit]
  rw [List.foldl_append, List.foldl_append, List.foldl_append, List.foldl_append, List.foldl_append, List.foldl_append, List.foldl_append]
  rw [crcCEChunk0]
  rw [crcCEChunk1]
  rw [crcCEChunk2]
  rw [crcCEChunk3]
  rw [crcCEChunk4]
  rw [crcCEChunk5]
  rw [crcCEChunk6]
  rw [crcCEChunk7]

theorem crcCECRC : calculateCRC16 "000201261000014BR.GOV.BCB.PIX0178AAAAAAAAAAAAAAAAAAAAAAAAAAAAAAAAAAAAAAAAAAAAAAAAAAAAAAAAAAAAAAAAAAAAAAAAAAAAAA5204000053039865802BR5901N6001C6304" = "AC24" := by
  unfold calculateCRC16
  rw [crcCEFold]
  decide


/-- The CRC check of `decode` always passes on a string formed by
appending its own checksum, whatever the contents. -/
theorem decode_encode_raw (withId : String) :
    PixCodec.decode (withId ++ calculateCRC16 withId)
      = match decodeFields (withId ++ calculateCRC16 withId) with
        | none => JsOutcome.diverges
        | some fields => JsOutcome.returns [("value", annotate fields)] := by
  have hcrc4 : (calculateCRC16 withId).data.length = 4 := calculateCRC16_length withId
  have hslen : (withId ++ calculateCRC16 withId).length = withId.data.length + 4 := by
    simp [String.length_append]
    have h1 : withId.length = withId.data.length := rfl
    have h2 : (calculateCRC16 withId).length = (calculateCRC16 withId).data.length := rfl
    omega
  have hne : withId ++ calculateCRC16 withId ≠ "" := str_ne_empty (by omega)
  unfold PixCodec.decode
  rw [if_neg hne]
  dsimp only
  rw [show (withId ++ calculateCRC16 withId).length - 4 = withId.data.length by omega]
  rw [strTake_append, strDrop_append]
  rw [if_neg (fun hne2 => hne2 rfl)]

/-- `encode` on the sample document produces the published vector
(with the checksum evaluated through the chunk lemmas). -/
theorem encode_finalKey : PixCodec.encode (docOf samplePayment) = finalKey := by
  have hfil : (docOf samplePayment).value.filter (fun f => f.id ≠ "63")
      = (docOf samplePayment).value := rfl
  have hbody : encodeBody (docOf samplePayment).value ++ "6304"
      = "00020126360014BR.GOV.BCB.PIX0114234842250001665204000053039865406123.455802BR5907WISEFOX6014BELO HORIZONTE62450507ref123450300017BR.GOV.BCB.BRCODE01051.0.06304" := rfl
  unfold PixCodec.encode
  dsimp only
  rw [hfil, hbody, crcMainCRC]
  decide

/-- The fully decoded sample vector. -/
theorem decode_finalKey :
    PixCodec.decode finalKey
      = .returns [("value", annotate ((docOf samplePayment).value.map reDec
          ++ [Field.mk "63" "04" none (.str "0D3F")]))] := by
  have hokB : ∀ f ∈ (docOf samplePayment).value, topOkB f = true := by decide
  have hok : ∀ f ∈ (docOf samplePayment).value, TopOk f :=
    fun f hf => (topOkB_iff f).mp (hokB f hf)
  have hde := decode_encode (docOf samplePayment) hok
  rw [encode_finalKey] at hde
  have hbody : encodeBody (docOf samplePayment).value ++ "6304"
      = "00020126360014BR.GOV.BCB.PIX0114234842250001665204000053039865406123.455802BR5907WISEFOX6014BELO HORIZONTE62450507ref123450300017BR.GOV.BCB.BRCODE01051.0.06304" := rfl
  rw [hbody, crcMainCRC] at hde
  exact hde

/-! ## The claims -/

/-- C1: `createPayment` on the sample parameters followed by `encode`
yields exactly the published string, and decoding that string yields a
top-level field `54` with value `"123.45"` and a top-level field `59`
with value `"WISEFOX"`. -/
theorem claim_C1 :
    PixCodec.encode (docOf samplePayment) = finalKey ∧
    topValue finalKey "54" = some "123.45" ∧
    topValue finalKey "59" = some "WISEFOX" := by
  refine ⟨encode_finalKey, ?_, ?_⟩
  · unfold topValue decodedTop
    rw [decode_finalKey]
    decide
  · unfold topValue decodedTop
    rw [decode_finalKey]
    decide

/-- C3: for every string, `calculateCRC16` returns exactly four
uppercase hexadecimal characters, equal to the CRC-16/CCITT-FALSE of
the string as the spec words it (initial register `0xFFFF`, polynomial
`0x1021`, code units absorbed into the high byte, 8 MSB-first rounds
with a 16-bit mask, rendered as four zero-padded uppercase hex
digits); in particular the checksum of `"123456789"` is `"29B1"`. -/
theorem claim_C3 (s : String) :
    (calculateCRC16 s).length = 4 ∧
    (∀ c ∈ (calculateCRC16 s).data, c.isDigit = true ∨ ('A' ≤ c ∧ c ≤ 'F')) ∧
    calculateCRC16 s = specHex4 (ccittFalse s) ∧
    calculateCRC16 "123456789" = "29B1" := by
  have hdig : ∀ d, d < 16 →
      (specHexDigit d).isDigit = true ∨ ('A' ≤ specHexDigit d ∧ specHexDigit d ≤ 'F') := by
    decide
  refine ⟨calculateCRC16_length s, ?_, calculateCRC16_eq_spec s, by decide⟩
  intro c hc
  rw [calculateCRC16_eq_spec] at hc
  unfold specHex4 at hc
  simp only [List.mem_cons, List.not_mem_nil, or_false] at hc
  rcases hc with rfl | rfl | rfl | rfl
  · exact hdig _ (Nat.mod_lt _ (by norm_num))
  · exact hdig _ (Nat.mod_lt _ (by norm_num))
  · exact hdig _ (Nat.mod_lt _ (by norm_num))
  · exact hdig _ (Nat.mod_lt _ (by norm_num))

/-- C4: for every nonempty string whose last four characters differ
from the CRC16 of everything before them, `decode` throws the
checksum-mismatch error carrying both the computed and the provided
values. -/
theorem claim_C4 (s : String) (hne : s ≠ "")
    (hm : strDrop s (s.length - 4) ≠ calculateCRC16 (strTake s (s.length - 4))) :
    PixCodec.decode s
      = .throws (.invalidCRC (calculateCRC16 (strTake s (s.length - 4)))
          (strDrop s (s.length - 4))) := by
  unfold PixCodec.decode
  rw [if_neg hne]
  dsimp only
  rw [if_pos hm]

/-- C4 witness: altering the final characters of an encoded string
("ABCD" against the CRC of its empty prefix) produces the
checksum-mismatch error with both values. -/
theorem claim_C4_witness :
    PixCodec.decode "ABCD" = .throws (.invalidCRC "FFFF" "ABCD") :=
  claim_C4 "ABCD" (by decide) (by decide)

/-- C5 counterexample: the object a successful decode returns has the
single key `"value"`, not `"fields"`. -/
theorem claim_C5_counterexample :
    (PixCodec.decode finalKey).isReturns = true ∧
    decodedKeys finalKey = ["value"] ∧ ("value" : String) ≠ "fields" := by
  refine ⟨?_, ?_, by decide⟩
  · rw [decode_finalKey]
    rfl
  · unfold decodedKeys
    rw [decode_finalKey]
    rfl

/-- C5 (amended): on every successful decode the result is an object
of the shape with the single key `"value"` holding the annotated
list, in which each top-level field's description is given by the
fixed lookup table (ids 00, 26, 52, 53, 54, 58, 59, 60, 62, 63) and
each subfield of a composite field is labelled per the 26/62 subfield
tables, all other ids receiving no description. -/
theorem claim_C5_amended (s : String) (obj : PixCodec.DecodedObj)
    (h : PixCodec.decode s = .returns obj) :
    ∃ fields, obj = [("value", fields)] ∧
      ∀ f ∈ fields, f.description = descriptionsMap f.id ∧
        (match f.value with
         | .arr subs => ∀ y ∈ subs, y.description = subDescription f.id y.id
         | .str _ => True) := by
  unfold PixCodec.decode at h
  by_cases hs : s = ""
  · rw [if_pos hs] at h
    cases h
  · rw [if_neg hs] at h
    dsimp only at h
    by_cases hcrc : strDrop s (s.length - 4) ≠ calculateCRC16 (strTake s (s.length - 4))
    · rw [if_pos hcrc] at h
      cases h
    · rw [if_neg hcrc] at h
      cases hdf : decodeFields s with
      | none => rw [hdf] at h; cases h
      | some fields =>
        rw [hdf] at h
        injection h with h
        subst h
        refine ⟨annotate fields, rfl, ?_⟩
        exact annotate_desc fields (decodeGo_noDesc _ _ _ _ hdf)

/-- C5 witness: the amended shape and labelling hold for the decoded
end-to-end vector. -/
theorem claim_C5_witness :
    ∃ fields, decodedObj finalKey = [("value", fields)] ∧
      ∀ f ∈ fields, f.description = descriptionsMap f.id ∧
        (match f.value with
         | .arr subs => ∀ y ∈ subs, y.description = subDescription f.id y.id
         | .str _ => True) :=
  claim_C5_amended finalKey (decodedObj finalKey)
    (by unfold decodedObj; rw [decode_finalKey])

/-- C6 counterexample: on `"ABCD"` the scan loop never runs, and the
synthesized terminal field's value is the empty string — `substr`
starts past the end — not the last four characters of the input. -/
theorem claim_C6_counterexample :
    (decodeFields "ABCD").map (List.map (fun f => (f.id, f.lengthStr, valStr f.value)))
      = some [("63", "04", some "")] ∧ ("" : String) ≠ "ABCD" := by
  refine ⟨by decide, by decide⟩

/-- C6 (amended): the scan stops once four or fewer characters remain
(so on inputs of length 1 to 4 it synthesizes only the terminal field
`{id 63, length 04}`, whose value is the empty string because
`substr(position + 4, 4)` starts past the end); in a complete encoded
string eight characters remain at the CRC tuple, so the generic scan
itself parses it — as the decoded end-to-end vector's field 63 with
value `"0D3F"` shows. -/
theorem claim_C6_amended :
    (∀ s : String, 1 ≤ s.length → s.length ≤ 4 →
      decodeFields s = some [Field.mk "63" "04" none (.str "")]) ∧
    topValue finalKey "63" = some "0D3F" := by
  constructor
  · intro s h1 h4
    have hdata : s.length = s.data.length := rfl
    unfold decodeFields
    rw [decodeGo]
    rw [if_neg (by omega : ¬ ((0 : Int) + 4 < (s.data.length : Int)))]
    rw [if_pos (by omega : (0 : Int) < (s.data.length : Int))]
    have hval : jsSubstr s.data (0 + 4) 4 = [] := by
      unfold jsSubstr
      dsimp only
      rw [if_neg (by omega)]
      rw [show ((0 : Int) + 4).toNat = 4 by decide]
      rw [show ((4 : Int)).toNat = 4 by decide]
      rw [List.drop_eq_nil_of_le (by omega)]
      rfl
    rw [hval]
  · unfold topValue decodedTop
    rw [decode_finalKey]
    decide

/-- C6 witness: a two-character input keeps the loop from running and
yields exactly the synthesized empty-valued terminal field. -/
theorem claim_C6_witness :
    decodeFields "AB" = some [Field.mk "63" "04" none (.str "")] :=
  claim_C6_amended.1 "AB" (by decide) (by decide)

/-- C8: `validateKey` strips non-digits and classifies in the fixed
order CPF (11 digits), CNPJ (14), then the original key against the
email, phone and UUID patterns, else an invalid result; a key whose
stripped form has 11 or 14 digits is classified before the patterns
are tried. -/
theorem claim_C8 (key : String) (hne : key ≠ "") :
    ((stripNonDigits key).length = 11 →
      PixCodec.validateKey key = ⟨true, some "CPF", none⟩) ∧
    ((stripNonDigits key).length ≠ 11 → (stripNonDigits key).length = 14 →
      PixCodec.validateKey key = ⟨true, some "CNPJ", none⟩) ∧
    ((stripNonDigits key).length ≠ 11 → (stripNonDigits key).length ≠ 14 →
      emailTest key = true →
      PixCodec.validateKey key = ⟨true, some "EMAIL", none⟩) ∧
    ((stripNonDigits key).length ≠ 11 → (stripNonDigits key).length ≠ 14 →
      emailTest key = false → phoneTest key = true →
      PixCodec.validateKey key = ⟨true, some "PHONE", none⟩) ∧
    ((stripNonDigits key).length ≠ 11 → (stripNonDigits key).length ≠ 14 →
      emailTest key = false → phoneTest key = false → uuidTest key = true →
      PixCodec.validateKey key = ⟨true, some "RANDOM", none⟩) ∧
    ((stripNonDigits key).length ≠ 11 → (stripNonDigits key).length ≠ 14 →
      emailTest key = false → phoneTest key = false → uuidTest key = false →
      PixCodec.validateKey key = ⟨false, none, some "Invalid PIX key format"⟩) := by
  have hiff : ∀ n, digitsExactly n (stripNonDigits key) = true
      ↔ (stripNonDigits key).length = n := by
    intro n
    rw [digitsExactly_strip]
    have h : (stripNonDigits key).length = (stripNonDigits key).data.length := rfl
    rw [h]
    simp
  unfold PixCodec.validateKey
  rw [if_neg hne]
  dsimp only
  refine ⟨?_, ?_, ?_, ?_, ?_, ?_⟩
  · intro h11
    rw [if_pos ((hiff 11).mpr h11)]
  · intro h11 h14
    rw [if_neg (fun hc => h11 ((hiff 11).mp hc)), if_pos ((hiff 14).mpr h14)]
  · intro h11 h14 hem
    rw [if_neg (fun hc => h11 ((hiff 11).mp hc)),
      if_neg (fun hc => h14 ((hiff 14).mp hc)), if_pos hem]
  · intro h11 h14 hem hph
    rw [if_neg (fun hc => h11 ((hiff 11).mp hc)),
      if_neg (fun hc => h14 ((hiff 14).mp hc)),
      if_neg (by simp [hem]), if_pos hph]
  · intro h11 h14 hem hph huu
    rw [if_neg (fun hc => h11 ((hiff 11).mp hc)),
      if_neg (fun hc => h14 ((hiff 14).mp hc)),
      if_neg (by simp [hem]), if_neg (by simp [hph]), if_pos huu]
  · intro h11 h14 hem hph huu
    rw [if_neg (fun hc => h11 ((hiff 11).mp hc)),
      if_neg (fun hc => h14 ((hiff 14).mp hc)),
      if_neg (by simp [hem]), if_neg (by simp [hph]), if_neg (by simp [huu])]

/-- C8 witness: a key that matches the email pattern but strips to 11
digits is classified CPF, demonstrating the fixed order. -/
theorem claim_C8_witness :
    PixCodec.validateKey "12345678901@a.bc" = ⟨true, some "CPF", none⟩ ∧
    emailTest "12345678901@a.bc" = true :=
  ⟨(claim_C8 "12345678901@a.bc" (by decide)).1 (by decide), by decide⟩

/-- C9 counterexample: on `"00-4XXXXX"` the parsed length is `-4`, the
position never advances, and the scan loop never terminates (the fuel
embedding returns `none` at the canonical budget; `decodeGo_dash4`
shows no fuel suffices), so `decodeFields` is not total. -/
theorem claim_C9_counterexample : decodeFields "00-4XXXXX" = none := by rfl

/-- C9 (amended): the decoder never raises, and when a parsed
(nonnegative) field length makes `position + 4 + length` exceed the
input size, the field's value is the truncated remainder of the input
and the scan terminates immediately; but it is not total on every
string, since a length whose two characters parse as a negative
integer can keep the position from advancing forever. -/
theorem claim_C9_amended (s : String) (pos ℓ f : Nat) (hf : 2 ≤ f)
    (hin : pos + 4 < s.length)
    (hlen : parseIntJs (jsSubstr s.data ((pos : Int) + 2) 2) = some (ℓ : Int))
    (h26 : (⟨jsSubstr s.data (pos : Int) 2⟩ : String) ≠ "26")
    (h62 : (⟨jsSubstr s.data (pos : Int) 2⟩ : String) ≠ "62")
    (hover : s.length < pos + 4 + ℓ) :
    decodeGo f s.data (pos : Int)
      = some [Field.mk ⟨jsSubstr s.data (pos : Int) 2⟩ (pad2 ℓ) none
          (.str ⟨s.data.drop (pos + 4)⟩)] := by
  have hdata : s.length = s.data.length := rfl
  match f, hf with
  | f' + 2, _ =>
    rw [decodeGo]
    rw [if_pos (by omega : ((pos : Int)) + 4 < (s.data.length : Int))]
    simp only [hlen]
    rw [if_neg (by
      intro hor
      rcases hor with h | h
      · exact h26 h
      · exact h62 h)]
    have hval : jsSubstr s.data ((pos : Int) + 4) (ℓ : Int) = s.data.drop (pos + 4) := by
      unfold jsSubstr
      rw [if_neg (by omega)]
      rw [show (((pos : Int)) + 4).toNat = pos + 4 by omega,
        show ((ℓ : Int)).toNat = ℓ by omega]
      exact List.take_of_length_le (by simp [List.length_drop]; omega)
    rw [hval]
    rw [show ((pos : Int)) + 4 + (ℓ : Int) = ((pos + 4 + ℓ : Nat) : Int) by push_cast; ring]
    rw [decodeGo]
    rw [if_neg (by omega : ¬ (((pos + 4 + ℓ : Nat) : Int) + 4 < (s.data.length : Int)))]
    rw [if_neg (by omega : ¬ (((pos + 4 + ℓ : Nat) : Int) < (s.data.length : Int)))]
    rfl

/-- C9 witness: a declared length of 99 with only two characters left
yields the truncated remainder and a terminated scan. -/
theorem claim_C9_witness :
    decodeGo 7 "0599AB".data 0
      = some [Field.mk "05" "99" none (.str "AB")] :=
  claim_C9_amended "0599AB" 0 99 7 (by omega) (by decide) (by decide)
    (by decide) (by decide) (by decide)

/-- C10: decode on the empty string throws the invalid-input error of
the non-empty-string guard, never reaching the checksum comparison. -/
theorem claim_C10 : PixCodec.decode "" = .throws .invalidString := by rfl

/-- C7: when amount is provided (with the required fields), the built
document contains field 54 holding the amount formatted to two decimal
places, inserted immediately before country/name/city, so the
top-level id order is 00, 26, 52, 53, 54, 58, 59, 60 (with the
additional-data template appended after when present); for a numeric
amount the formatted value ends in a dot and exactly two digits. -/
theorem claim_C7 (p : PaymentParams) (hk : truthy p.key = true)
    (hn : truthy p.merchantName = true) (hc : truthy p.merchantCity = true)
    (ha : truthy p.amount = true) (d : PixData)
    (hd : PixCodec.createPayment p = .returns d) :
    d.value.map Field.id
      = ["00", "26", "52", "53", "54", "58", "59", "60"]
        ++ (if truthy p.transactionId = true ∨ truthy p.description = true
            then ["62"] else []) ∧
    d.value[4]? = some (Field.mk "54" "variable" (some "Transaction Amount")
        (.str (toFixed2 (p.amount.getD "")))) ∧
    (decNumeral (p.amount.getD "") = true →
      twoDecimalTail (toFixed2 (p.amount.getD "")) = true) := by
  unfold PixCodec.createPayment at hd
  rw [if_neg (fun hcon => hcon ⟨hk, hn, hc⟩)] at hd
  dsimp only at hd
  rw [if_pos ha] at hd
  by_cases h62 : truthy p.transactionId = true ∨ truthy p.description = true
  · rw [if_pos h62] at hd
    injection hd with hd2
    subst hd2
    refine ⟨?_, rfl, fun hnum => toFixed2_twoDec _ hnum⟩
    rw [if_pos h62]
    rfl
  · rw [if_neg h62] at hd
    injection hd with hd2
    subst hd2
    refine ⟨?_, rfl, fun hnum => toFixed2_twoDec _ hnum⟩
    rw [if_neg h62]
    rfl

/-- C7 witness: the sample parameters produce the 54 field at index 4
with value `"123.45"` and the id order 00, 26, 52, 53, 54, 58, 59,
60, 62. -/
theorem claim_C7_witness :
    (docOf samplePayment).value.map Field.id
      = ["00", "26", "52", "53", "54", "58", "59", "60", "62"] ∧
    (docOf samplePayment).value[4]? = some (Field.mk "54" "variable"
        (some "Transaction Amount") (.str "123.45")) ∧
    (decNumeral "123.45" = true → twoDecimalTail "123.45" = true) :=
  claim_C7 samplePayment (by decide) (by decide) (by decide) (by decide)
    (docOf samplePayment) rfl

/-! ## Field signatures survive a scan of a well-formed document -/

theorem truthy_getD_ne {o : Option String} (h : truthy o = true) :
    o.getD "" ≠ "" := by
  cases o with
  | none => simp [truthy] at h
  | some s => simpa [truthy, Option.getD] using h

theorem encodeSubs_cons (xi xl : String) (xd : Option String) (xv : FieldVal)
    (rest : List Field) (h : xi ≠ "") :
    encodeSubs (.mk xi xl xd xv :: rest)
      = (xi ++ pad2 (subValueStr xv).length ++ subValueStr xv) ++ encodeSubs rest := by
  simp only [encodeSubs]
  rw [if_neg h]

theorem encodeSubs_length_cons (xi xl : String) (xd : Option String) (xv : FieldVal)
    (rest : List Field) (hne : xi ≠ "") (hid2 : xi.length = 2)
    (hlt : (subValueStr xv).length < 100) :
    (encodeSubs (.mk xi xl xd xv :: rest)).length
      = 4 + (subValueStr xv).length + (encodeSubs rest).length := by
  rw [encodeSubs_cons _ _ _ _ _ hne]
  rw [String.length_append, String.length_append, String.length_append]
  have h2 : (pad2 (subValueStr xv).length).length = 2 := pad2_data_length hlt
  omega

theorem encodeGrands_map_subDec : ∀ (subs : List Field),
    (∀ x ∈ subs, subValueStr x.value = wireContent x.value) →
    encodeGrands (subs.map subDec) = encodeGrands subs := by
  intro subs
  induction subs with
  | nil => intro _; rfl
  | cons x rest ih =>
    intro h
    cases x with
    | mk xi xl xd xv =>
      have hx : subValueStr xv = wireContent xv := by
        have := h (Field.mk xi xl xd xv) (by simp)
        simpa [Field.value] using this
      have hrest := ih (fun y hy => h y (by simp [hy]))
      simp only [List.map, subDec, Field.id, Field.value, encodeGrands]
      rw [hrest, hx, encodeField_wire xi xv]
      rfl

theorem fieldSig_reDec_comp (i l : String) (dsc : Option String) (subs : List Field)
    (hok : ∀ x ∈ subs, SubOk x) (hn : subs.length ≤ 4)
    (hsv : ∀ x ∈ subs, subValueStr x.value = wireContent x.value) :
    fieldSig (reDec (Field.mk i l dsc (.arr subs)))
      = fieldSig (Field.mk i l dsc (.arr subs)) := by
  unfold reDec
  dsimp only
  rw [decodeSubs_eq subs hok hn]
  unfold fieldSig
  simp only [Field.id, Field.value, subValueStr, Option.getD]
  rw [encodeGrands_map_subDec subs hsv]

theorem TopOk_scalar (i l : String) (dsc : Option String) (s : String)
    (hid2 : i.data.length = 2) (hne : i ≠ "") (h63 : i ≠ "63")
    (h26 : i ≠ "26") (h62 : i ≠ "62") (hs : s.length < 100) :
    TopOk (Field.mk i l dsc (.str s)) :=
  ⟨hid2, hne, h63, hs, h26, h62⟩

theorem TopOk_comp (i l : String) (dsc : Option String) (subs : List Field)
    (hid2 : i.data.length = 2) (hne : i ≠ "") (h63 : i ≠ "63")
    (hcomp : i = "26" ∨ i = "62")
    (hok : ∀ x ∈ subs, SubOk x) (hn : subs.length ≤ 4)
    (hlen : (encodeSubs subs).length < 100) :
    TopOk (Field.mk i l dsc (.arr subs)) := by
  refine ⟨hid2, hne, h63, hlen, hcomp, ?_⟩
  rw [decodeSubs_eq subs hok hn]
  rfl

/-- Decoding the encoding of a document of well-formed fields with
signature-stable values returns exactly the document's field
signatures plus the CRC field. -/
theorem C2_core (L : List Field) (hok : ∀ f ∈ L, TopOk f)
    (hsig : ∀ f ∈ L, fieldSig (reDec f) = fieldSig f) :
    (PixCodec.decode (PixCodec.encode ⟨L⟩)).isReturns = true ∧
    (decodedTop (PixCodec.encode ⟨L⟩)).map fieldSig
      = L.map fieldSig ++ [("63", calculateCRC16 (encodeBody L ++ "6304"))] := by
  have hde := decode_encode ⟨L⟩ hok
  constructor
  · rw [hde]
    rfl
  · unfold decodedTop
    rw [hde]
    show (annotate ((⟨L⟩ : PixData).value.map reDec
        ++ [Field.mk "63" "04" none
            (.str (calculateCRC16 (encodeBody (⟨L⟩ : PixData).value ++ "6304")))])).map fieldSig = _
    rw [annotate_map_fieldSig]
    rw [List.map_append]
    show (List.map reDec L).map fieldSig ++ _ = _
    congr 1
    · rw [List.map_map]
      exact List.map_congr_left (fun f hf => hsig f hf)

/-- The counterexample parameters for the round-trip claim: a 78-char
key makes field 26's contents 100 chars long, whose three-digit length
breaks the two-digit scan. -/
def paramsCE : PaymentParams :=
  { key := some ⟨List.replicate 78 'A'⟩, merchantName := some "N",
    merchantCity := some "C" }

/-- C2 counterexample: `createPayment` succeeds on `paramsCE` (all
three required parameters are non-empty), the CRC check of `decode`
still passes on the encoding, but the decoded field ids are not those
of the document (the 100-char contents of field 26 produce a
three-digit length that desynchronizes the scan). -/
theorem claim_C2_counterexample :
    truthy paramsCE.key = true ∧ truthy paramsCE.merchantName = true ∧
    truthy paramsCE.merchantCity = true ∧
    PixCodec.createPayment paramsCE = .returns (docOf paramsCE) ∧
    (PixCodec.decode (PixCodec.encode (docOf paramsCE))).isReturns = true ∧
    (decodedTop (PixCodec.encode (docOf paramsCE))).map Field.id
      ≠ (docOf paramsCE).value.map Field.id ++ ["63"] := by
  have hfil : (docOf paramsCE).value.filter (fun f => f.id ≠ "63")
      = (docOf paramsCE).value := rfl
  have hbody : encodeBody (docOf paramsCE).value ++ "6304"
      = "000201261000014BR.GOV.BCB.PIX0178AAAAAAAAAAAAAAAAAAAAAAAAAAAAAAAAAAAAAAAAAAAAAAAAAAAAAAAAAAAAAAAAAAAAAAAAAAAAAA5204000053039865802BR5901N6001C6304" := rfl
  have henc : PixCodec.encode (docOf paramsCE)
      = "000201261000014BR.GOV.BCB.PIX0178AAAAAAAAAAAAAAAAAAAAAAAAAAAAAAAAAAAAAAAAAAAAAAAAAAAAAAAAAAAAAAAAAAAAAAAAAAAAAA5204000053039865802BR5901N6001C6304"
        ++ calculateCRC16 "000201261000014BR.GOV.BCB.PIX0178AAAAAAAAAAAAAAAAAAAAAAAAAAAAAAAAAAAAAAAAAAAAAAAAAAAAAAAAAAAAAAAAAAAAAAAAAAAAAA5204000053039865802BR5901N6001C6304" := by
    unfold PixCodec.encode
    dsimp only
    rw [hfil, hbody]
  have hraw := decode_encode_raw "000201261000014BR.GOV.BCB.PIX0178AAAAAAAAAAAAAAAAAAAAAAAAAAAAAAAAAAAAAAAAAAAAAAAAAAAAAAAAAAAAAAAAAAAAAAAAAAAAAA5204000053039865802BR5901N6001C6304"
  rw [crcCECRC] at hraw henc
  refine ⟨by decide, by decide, by decide, rfl, ?_, ?_⟩
  · rw [henc, hraw]
    decide
  · unfold decodedTop
    rw [henc, hraw]
    decide

/-- C2 (amended): for every document built by `createPayment` from
parameters with non-empty key, merchantName and merchantCity whose
parts also fit the scan's two-digit lengths (key at most 77 chars so
field 26's contents stay under 100, name/city/formatted amount under
100 chars, and transaction-id/description tuples summing to at most
65 chars so field 62's contents stay under 100),
`decode(encode(document))` succeeds and returns the document's field
ids and values (descriptions ignored) plus the terminal 63 field
carrying exactly the CRC that `encode` appended. -/
theorem claim_C2_amended (p : PaymentParams)
    (hk : truthy p.key = true) (hn : truthy p.merchantName = true)
    (hc : truthy p.merchantCity = true)
    (hklen : (p.key.getD "").length ≤ 77)
    (hnlen : (p.merchantName.getD "").length ≤ 99)
    (hclen : (p.merchantCity.getD "").length ≤ 99)
    (halen : (toFixed2 (p.amount.getD "")).length ≤ 99)
    (hsum : (if truthy p.transactionId = true
              then 4 + (p.transactionId.getD "").length else 0)
          + (if truthy p.description = true
              then 4 + (p.description.getD "").length else 0) ≤ 65)
    (d : PixData) (hd : PixCodec.createPayment p = .returns d) :
    (PixCodec.decode (PixCodec.encode d)).isReturns = true ∧
    (decodedTop (PixCodec.encode d)).map fieldSig
      = d.value.map fieldSig
        ++ [("63", calculateCRC16 (encodeBody d.value ++ "6304"))] := by
  have hkne := truthy_getD_ne hk
  have hok00 : TopOk (Field.mk "00" "02" (some "Payload Format Indicator")
      (FieldVal.str "01")) := (topOkB_iff _).mp (by decide)
  have hok52 : TopOk (Field.mk "52" "04" (some "Merchant Category Code (MCC)")
      (FieldVal.str "0000")) := (topOkB_iff _).mp (by decide)
  have hok53 : TopOk (Field.mk "53" "03" (some "Transaction Currency")
      (FieldVal.str "986")) := (topOkB_iff _).mp (by decide)
  have hok58 : TopOk (Field.mk "58" "02" (some "Country Code")
      (FieldVal.str "BR")) := (topOkB_iff _).mp (by decide)
  have hok54 : TopOk (Field.mk "54" "variable" (some "Transaction Amount")
      (FieldVal.str (toFixed2 (p.amount.getD "")))) :=
    TopOk_scalar "54" "variable" (some "Transaction Amount")
      (toFixed2 (p.amount.getD "")) rfl (by decide) (by decide) (by decide)
      (by decide) (by omega)
  have hok59 : TopOk (Field.mk "59" "variable" (some "Merchant Name")
      (FieldVal.str (upperStr (p.merchantName.getD "")))) :=
    TopOk_scalar "59" "variable" (some "Merchant Name")
      (upperStr (p.merchantName.getD "")) rfl (by decide) (by decide)
      (by decide) (by decide) (by rw [upperStr_length]; omega)
  have hok60 : TopOk (Field.mk "60" "variable" (some "Merchant City")
      (FieldVal.str (upperStr (p.merchantCity.getD "")))) :=
    TopOk_scalar "60" "variable" (some "Merchant City")
      (upperStr (p.merchantCity.getD "")) rfl (by decide) (by decide)
      (by decide) (by decide) (by rw [upperStr_length]; omega)
  have hsubok26 : ∀ x ∈ [Field.mk "00" "14" (some "GUI")
        (FieldVal.str "BR.GOV.BCB.PIX"),
      Field.mk "01" "variable" (some "Key")
        (FieldVal.str (p.key.getD ""))], SubOk x := by
    intro x hx
    simp only [List.mem_cons, List.not_mem_nil, or_false] at hx
    rcases hx with rfl | rfl
    · exact (subOkB_iff _).mp (by decide)
    · exact ⟨rfl, by show ("01" : String) ≠ ""; decide,
        by show ("01" : String) ≠ "26"; decide,
        by show ("01" : String) ≠ "62"; decide, str_pos hkne,
        by show (p.key.getD "").length < 100; omega⟩
  have h26len : (encodeSubs [Field.mk "00" "14" (some "GUI")
        (FieldVal.str "BR.GOV.BCB.PIX"),
      Field.mk "01" "variable" (some "Key")
        (FieldVal.str (p.key.getD ""))]).length < 100 := by
    rw [encodeSubs_length_cons "00" "14" (some "GUI")
      (FieldVal.str "BR.GOV.BCB.PIX")
      [Field.mk "01" "variable" (some "Key") (FieldVal.str (p.key.getD ""))]
      (by decide) (by decide) (by decide)]
    rw [encodeSubs_length_cons "01" "variable" (some "Key")
      (FieldVal.str (p.key.getD "")) []
      (by decide) (by decide) (by show (p.key.getD "").length < 100; omega)]
    have e1 : (subValueStr (FieldVal.str "BR.GOV.BCB.PIX")).length = 14 := by decide
    have e2 : (subValueStr (FieldVal.str (p.key.getD ""))).length
        = (p.key.getD "").length := rfl
    have e3 : (encodeSubs ([] : List Field)).length = 0 := by decide
    rw [e1, e2, e3]
    omega
  have hok26 : TopOk (Field.mk "26" "variable"
      (some "Merchant Account Information")
      (FieldVal.arr [Field.mk "00" "14" (some "GUI")
          (FieldVal.str "BR.GOV.BCB.PIX"),
        Field.mk "01" "variable" (some "Key")
          (FieldVal.str (p.key.getD ""))])) :=
    TopOk_comp "26" "variable" (some "Merchant Account Information") _
      rfl (by decide) (by decide) (Or.inl rfl) hsubok26 (by simp) h26len
  have hsig26 : fieldSig (reDec (Field.mk "26" "variable"
        (some "Merchant Account Information")
        (FieldVal.arr [Field.mk "00" "14" (some "GUI")
            (FieldVal.str "BR.GOV.BCB.PIX"),
          Field.mk "01" "variable" (some "Key")
            (FieldVal.str (p.key.getD ""))])))
      = fieldSig (Field.mk "26" "variable"
        (some "Merchant Account Information")
        (FieldVal.arr [Field.mk "00" "14" (some "GUI")
            (FieldVal.str "BR.GOV.BCB.PIX"),
          Field.mk "01" "variable" (some "Key")
            (FieldVal.str (p.key.getD ""))])) :=
    fieldSig_reDec_comp "26" "variable"
      (some "Merchant Account Information") _ hsubok26 (by simp) (by
        intro x hx
        simp only [List.mem_cons, List.not_mem_nil, or_false] at hx
        rcases hx with rfl | rfl
        · rfl
        · rfl)
  unfold PixCodec.createPayment at hd
  rw [if_neg (fun hcon => hcon ⟨hk, hn, hc⟩)] at hd
  dsimp only at hd
  by_cases h62p : truthy p.transactionId = true ∨ truthy p.description = true
  · rw [if_pos h62p] at hd
    by_cases ht : truthy p.transactionId = true
    · have htne := truthy_getD_ne ht
      rw [if_pos ht] at hd
      by_cases hdp : truthy p.description = true
      · -- transaction id and description both present
        have hdne := truthy_getD_ne hdp
        rw [if_pos hdp] at hd
        have hsum' := hsum
        rw [if_pos ht, if_pos hdp] at hsum'
        have hsubok62 : ∀ x ∈ [Field.mk "05" "variable"
              (some "Transaction ID")
              (FieldVal.str (p.transactionId.getD "")),
            Field.mk "02" "variable" (some "Description")
              (FieldVal.str (p.description.getD "")),
            Field.mk "50" "variable" (some "Payment system specific template")
              (FieldVal.arr [Field.mk "00" "17" (some "GUI")
                  (FieldVal.str "BR.GOV.BCB.BRCODE"),
                Field.mk "01" "05" (some "version")
                  (FieldVal.str "1.0.0")])], SubOk x := by
          intro x hx
          simp only [List.mem_cons, List.not_mem_nil, or_false] at hx
          rcases hx with rfl | rfl | rfl
          · exact ⟨rfl, by show ("05" : String) ≠ ""; decide,
              by show ("05" : String) ≠ "26"; decide,
              by show ("05" : String) ≠ "62"; decide, str_pos htne,
              by show (p.transactionId.getD "").length < 100; omega⟩
          · exact ⟨rfl, by show ("02" : String) ≠ ""; decide,
              by show ("02" : String) ≠ "26"; decide,
              by show ("02" : String) ≠ "62"; decide, str_pos hdne,
              by show (p.description.getD "").length < 100; omega⟩
          · exact (subOkB_iff _).mp (by decide)
        have h62len : (encodeSubs [Field.mk "05" "variable"
              (some "Transaction ID")
              (FieldVal.str (p.transactionId.getD "")),
            Field.mk "02" "variable" (some "Description")
              (FieldVal.str (p.description.getD "")),
            Field.mk "50" "variable" (some "Payment system specific template")
              (FieldVal.arr [Field.mk "00" "17" (some "GUI")
                  (FieldVal.str "BR.GOV.BCB.BRCODE"),
                Field.mk "01" "05" (some "version")
                  (FieldVal.str "1.0.0")])]).length < 100 := by
          rw [encodeSubs_length_cons "05" "variable" (some "Transaction ID")
            (FieldVal.str (p.transactionId.getD ""))
            [Field.mk "02" "variable" (some "Description")
              (FieldVal.str (p.description.getD "")),
             Field.mk "50" "variable" (some "Payment system specific template")
              (FieldVal.arr [Field.mk "00" "17" (some "GUI")
                  (FieldVal.str "BR.GOV.BCB.BRCODE"),
                Field.mk "01" "05" (some "version")
                  (FieldVal.str "1.0.0")])]
            (by decide) (by decide)
            (by show (p.transactionId.getD "").length < 100; omega)]
          rw [encodeSubs_length_cons "02" "variable" (some "Description")
            (FieldVal.str (p.description.getD ""))
            [Field.mk "50" "variable" (some "Payment system specific template")
              (FieldVal.arr [Field.mk "00" "17" (some "GUI")
                  (FieldVal.str "BR.GOV.BCB.BRCODE"),
                Field.mk "01" "05" (some "version")
                  (FieldVal.str "1.0.0")])]
            (by decide) (by decide)
            (by show (p.description.getD "").length < 100; omega)]
          rw [encodeSubs_length_cons "50" "variable"
            (some "Payment system specific template")
            (FieldVal.arr [Field.mk "00" "17" (some "GUI")
                (FieldVal.str "BR.GOV.BCB.BRCODE"),
              Field.mk "01" "05" (some "version") (FieldVal.str "1.0.0")])
            [] (by decide) (by decide) (by decide)]
          have e1 : (subValueStr (FieldVal.str (p.transactionId.getD ""))).length
              = (p.transactionId.getD "").length := rfl
          have e2 : (subValueStr (FieldVal.str (p.description.getD ""))).length
              = (p.description.getD "").length := rfl
          have e3 : (subValueStr (FieldVal.arr [Field.mk "00" "17" (some "GUI")
                (FieldVal.str "BR.GOV.BCB.BRCODE"),
              Field.mk "01" "05" (some "version")
                (FieldVal.str "1.0.0")])).length = 30 := by decide
          have e4 : (encodeSubs ([] : List Field)).length = 0 := by decide
          rw [e1, e2, e3, e4]
          omega
        have hok62 : TopOk (Field.mk "62" "variable"
            (some "Additional Data Field Template")
            (FieldVal.arr [Field.mk "05" "variable" (some "Transaction ID")
                (FieldVal.str (p.transactionId.getD "")),
              Field.mk "02" "variable" (some "Description")
                (FieldVal.str (p.description.getD "")),
              Field.mk "50" "variable"
                (some "Payment system specific template")
                (FieldVal.arr [Field.mk "00" "17" (some "GUI")
                    (FieldVal.str "BR.GOV.BCB.BRCODE"),
                  Field.mk "01" "05" (some "version")
                    (FieldVal.str "1.0.0")])])) :=
          TopOk_comp "62" "variable" (some "Additional Data Field Template") _
            rfl (by decide) (by decide) (Or.inr rfl) hsubok62 (by simp) h62len
        have hsig62 := fieldSig_reDec_comp "62" "variable"
          (some "Additional Data Field Template")
          [Field.mk "05" "variable" (some "Transaction ID")
              (FieldVal.str (p.transactionId.getD "")),
            Field.mk "02" "variable" (some "Description")
              (FieldVal.str (p.description.getD "")),
            Field.mk "50" "variable" (some "Payment system specific template")
              (FieldVal.arr [Field.mk "00" "17" (some "GUI")
                  (FieldVal.str "BR.GOV.BCB.BRCODE"),
                Field.mk "01" "05" (some "version")
                  (FieldVal.str "1.0.0")])]
          hsubok62 (by simp) (by
            intro x hx
            simp only [List.mem_cons, List.not_mem_nil, or_false] at hx
            rcases hx with rfl | rfl | rfl
            · rfl
            · rfl
            · decide)
        by_cases hamt : truthy p.amount = true
        · rw [if_pos hamt] at hd
          injection hd with hd2
          subst hd2
          exact C2_core
            [Field.mk "00" "02" (some "Payload Format Indicator")
              (FieldVal.str "01"),
             Field.mk "26" "variable" (some "Merchant Account Information")
              (FieldVal.arr [Field.mk "00" "14" (some "GUI")
                  (FieldVal.str "BR.GOV.BCB.PIX"),
                Field.mk "01" "variable" (some "Key")
                  (FieldVal.str (p.key.getD ""))]),
             Field.mk "52" "04" (some "Merchant Category Code (MCC)")
              (FieldVal.str "0000"),
             Field.mk "53" "03" (some "Transaction Currency")
              (FieldVal.str "986"),
             Field.mk "54" "variable" (some "Transaction Amount")
              (FieldVal.str (toFixed2 (p.amount.getD ""))),
             Field.mk "58" "02" (some "Country Code") (FieldVal.str "BR"),
             Field.mk "59" "variable" (some "Merchant Name")
              (FieldVal.str (upperStr (p.merchantName.getD ""))),
             Field.mk "60" "variable" (some "Merchant City")
              (FieldVal.str (upperStr (p.merchantCity.getD ""))),
             Field.mk "62" "variable" (some "Additional Data Field Template")
              (FieldVal.arr [Field.mk "05" "variable" (some "Transaction ID")
                  (FieldVal.str (p.transactionId.getD "")),
                Field.mk "02" "variable" (some "Description")
                  (FieldVal.str (p.description.getD "")),
                Field.mk "50" "variable"
                  (some "Payment system specific template")
                  (FieldVal.arr [Field.mk "00" "17" (some "GUI")
                      (FieldVal.str "BR.GOV.BCB.BRCODE"),
                    Field.mk "01" "05" (some "version")
                      (FieldVal.str "1.0.0")])])]
            (by
              intro f hf
              simp only [List.mem_cons, List.not_mem_nil, or_false] at hf
              rcases hf with rfl | rfl | rfl | rfl | rfl | rfl | rfl | rfl | rfl
              exacts [hok00, hok26, hok52, hok53, hok54, hok58, hok59, hok60,
                hok62])
            (by
              intro f hf
              simp only [List.mem_cons, List.not_mem_nil, or_false] at hf
              rcases hf with rfl | rfl | rfl | rfl | rfl | rfl | rfl | rfl | rfl
              exacts [rfl, hsig26, rfl, rfl, rfl, rfl, rfl, rfl, hsig62])
        · rw [if_neg hamt] at hd
          injection hd with hd2
          subst hd2
          exact C2_core
            [Field.mk "00" "02" (some "Payload Format Indicator")
              (FieldVal.str "01"),
             Field.mk "26" "variable" (some "Merchant Account Information")
              (FieldVal.arr [Field.mk "00" "14" (some "GUI")
                  (FieldVal.str "BR.GOV.BCB.PIX"),
                Field.mk "01" "variable" (some "Key")
                  (FieldVal.str (p.key.getD ""))]),
             Field.mk "52" "04" (some "Merchant Category Code (MCC)")
              (FieldVal.str "0000"),
             Field.mk "53" "03" (some "Transaction Currency")
              (FieldVal.str "986"),
             Field.mk "58" "02" (some "Country Code") (FieldVal.str "BR"),
             Field.mk "59" "variable" (some "Merchant Name")
              (FieldVal.str (upperStr (p.merchantName.getD ""))),
             Field.mk "60" "variable" (some "Merchant City")
              (FieldVal.str (upperStr (p.merchantCity.getD ""))),
             Field.mk "62" "variable" (some "Additional Data Field Template")
              (FieldVal.arr [Field.mk "05" "variable" (some "Transaction ID")
                  (FieldVal.str (p.transactionId.getD "")),
                Field.mk "02" "variable" (some "Description")
                  (FieldVal.str (p.description.getD "")),
                Field.mk "50" "variable"
                  (some "Payment system specific template")
                  (FieldVal.arr [Field.mk "00" "17" (some "GUI")
                      (FieldVal.str "BR.GOV.BCB.BRCODE"),
                    Field.mk "01" "05" (some "version")
                      (FieldVal.str "1.0.0")])])]
            (by
              intro f hf
              simp only [List.mem_cons, List.not_mem_nil, or_false] at hf
              rcases hf with rfl | rfl | rfl | rfl | rfl | rfl | rfl | rfl
              exacts [hok00, hok26, hok52, hok53, hok58, hok59, hok60, hok62])
            (by
              intro f hf
              simp only [List.mem_cons, List.not_mem_nil, or_false] at hf
              rcases hf with rfl | rfl | rfl | rfl | rfl | rfl | rfl | rfl
              exacts [rfl, hsig26, rfl, rfl, rfl, rfl, rfl, hsig62])
      · -- transaction id only
        rw [if_neg hdp] at hd
        have hsum' := hsum
        rw [if_pos ht, if_neg hdp] at hsum'
        have hsubok62 : ∀ x ∈ [Field.mk "05" "variable"
              (some "Transaction ID")
              (FieldVal.str (p.transactionId.getD "")),
            Field.mk "50" "variable" (some "Payment system specific template")
              (FieldVal.arr [Field.mk "00" "17" (some "GUI")
                  (FieldVal.str "BR.GOV.BCB.BRCODE"),
                Field.mk "01" "05" (some "version")
                  (FieldVal.str "1.0.0")])], SubOk x := by
          intro x hx
          simp only [List.mem_cons, List.not_mem_nil, or_false] at hx
          rcases hx with rfl | rfl
          · exact ⟨rfl, by show ("05" : String) ≠ ""; decide,
              by show ("05" : String) ≠ "26"; decide,
              by show ("05" : String) ≠ "62"; decide, str_pos htne,
              by show (p.transactionId.getD "").length < 100; omega⟩
          · exact (subOkB_iff _).mp (by decide)
        have h62len : (encodeSubs [Field.mk "05" "variable"
              (some "Transaction ID")
              (FieldVal.str (p.transactionId.getD "")),
            Field.mk "50" "variable" (some "Payment system specific template")
              (FieldVal.arr [Field.mk "00" "17" (some "GUI")
                  (FieldVal.str "BR.GOV.BCB.BRCODE"),
                Field.mk "01" "05" (some "version")
                  (FieldVal.str "1.0.0")])]).length < 100 := by
          rw [encodeSubs_length_cons "05" "variable" (some "Transaction ID")
            (FieldVal.str (p.transactionId.getD ""))
            [Field.mk "50" "variable" (some "Payment system specific template")
              (FieldVal.arr [Field.mk "00" "17" (some "GUI")
                  (FieldVal.str "BR.GOV.BCB.BRCODE"),
                Field.mk "01" "05" (some "version")
                  (FieldVal.str "1.0.0")])]
            (by decide) (by decide)
            (by show (p.transactionId.getD "").length < 100; omega)]
          rw [encodeSubs_length_cons "50" "variable"
            (some "Payment system specific template")
            (FieldVal.arr [Field.mk "00" "17" (some "GUI")
                (FieldVal.str "BR.GOV.BCB.BRCODE"),
              Field.mk "01" "05" (some "version") (FieldVal.str "1.0.0")])
            [] (by decide) (by decide) (by decide)]
          have e1 : (subValueStr (FieldVal.str (p.transactionId.getD ""))).length
              = (p.transactionId.getD "").length := rfl
          have e3 : (subValueStr (FieldVal.arr [Field.mk "00" "17" (some "GUI")
                (FieldVal.str "BR.GOV.BCB.BRCODE"),
              Field.mk "01" "05" (some "version")
                (FieldVal.str "1.0.0")])).length = 30 := by decide
          have e4 : (encodeSubs ([] : List Field)).length = 0 := by decide
          rw [e1, e3, e4]
          omega
        have hok62 : TopOk (Field.mk "62" "variable"
            (some "Additional Data Field Template")
            (FieldVal.arr [Field.mk "05" "variable" (some "Transaction ID")
                (FieldVal.str (p.transactionId.getD "")),
              Field.mk "50" "variable"
                (some "Payment system specific template")
                (FieldVal.arr [Field.mk "00" "17" (some "GUI")
                    (FieldVal.str "BR.GOV.BCB.BRCODE"),
                  Field.mk "01" "05" (some "version")
                    (FieldVal.str "1.0.0")])])) :=
          TopOk_comp "62" "variable" (some "Additional Data Field Template") _
            rfl (by decide) (by decide) (Or.inr rfl) hsubok62 (by simp) h62len
        have hsig62 := fieldSig_reDec_comp "62" "variable"
          (some "Additional Data Field Template")
          [Field.mk "05" "variable" (some "Transaction ID")
              (FieldVal.str (p.transactionId.getD "")),
            Field.mk "50" "variable" (some "Payment system specific template")
              (FieldVal.arr [Field.mk "00" "17" (some "GUI")
                  (FieldVal.str "BR.GOV.BCB.BRCODE"),
                Field.mk "01" "05" (some "version")
                  (FieldVal.str "1.0.0")])]
          hsubok62 (by simp) (by
            intro x hx
            simp only [List.mem_cons, List.not_mem_nil, or_false] at hx
            rcases hx with rfl | rfl
            · rfl
            · decide)
        by_cases hamt : truthy p.amount = true
        · rw [if_pos hamt] at hd
          injection hd with hd2
          subst hd2
          exact C2_core
            [Field.mk "00" "02" (some "Payload Format Indicator")
              (FieldVal.str "01"),
             Field.mk "26" "variable" (some "Merchant Account Information")
              (FieldVal.arr [Field.mk "00" "14" (some "GUI")
                  (FieldVal.str "BR.GOV.BCB.PIX"),
                Field.mk "01" "variable" (some "Key")
                  (FieldVal.str (p.key.getD ""))]),
             Field.mk "52" "04" (some "Merchant Category Code (MCC)")
              (FieldVal.str "0000"),
             Field.mk "53" "03" (some "Transaction Currency")
              (FieldVal.str "986"),
             Field.mk "54" "variable" (some "Transaction Amount")
              (FieldVal.str (toFixed2 (p.amount.getD ""))),
             Field.mk "58" "02" (some "Country Code") (FieldVal.str "BR"),
             Field.mk "59" "variable" (some "Merchant Name")
              (FieldVal.str (upperStr (p.merchantName.getD ""))),
             Field.mk "60" "variable" (some "Merchant City")
              (FieldVal.str (upperStr (p.merchantCity.getD ""))),
             Field.mk "62" "variable" (some "Additional Data Field Template")
              (FieldVal.arr [Field.mk "05" "variable" (some "Transaction ID")
                  (FieldVal.str (p.transactionId.getD "")),
                Field.mk "50" "variable"
                  (some "Payment system specific template")
                  (FieldVal.arr [Field.mk "00" "17" (some "GUI")
                      (FieldVal.str "BR.GOV.BCB.BRCODE"),
                    Field.mk "01" "05" (some "version")
                      (FieldVal.str "1.0.0")])])]
            (by
              intro f hf
              simp only [List.mem_cons, List.not_mem_nil, or_false] at hf
              rcases hf with rfl | rfl | rfl | rfl | rfl | rfl | rfl | rfl | rfl
              exacts [hok00, hok26, hok52, hok53, hok54, hok58, hok59, hok60,
                hok62])
            (by
              intro f hf
              simp only [List.mem_cons, List.not_mem_nil, or_false] at hf
              rcases hf with rfl | rfl | rfl | rfl | rfl | rfl | rfl | rfl | rfl
              exacts [rfl, hsig26, rfl, rfl, rfl, rfl, rfl, rfl, hsig62])
        · rw [if_neg hamt] at hd
          injection hd with hd2
          subst hd2
          exact C2_core
            [Field.mk "00" "02" (some "Payload Format Indicator")
              (FieldVal.str "01"),
             Field.mk "26" "variable" (some "Merchant Account Information")
              (FieldVal.arr [Field.mk "00" "14" (some "GUI")
                  (FieldVal.str "BR.GOV.BCB.PIX"),
                Field.mk "01" "variable" (some "Key")
                  (FieldVal.str (p.key.getD ""))]),
             Field.mk "52" "04" (some "Merchant Category Code (MCC)")
              (FieldVal.str "0000"),
             Field.mk "53" "03" (some "Transaction Currency")
              (FieldVal.str "986"),
             Field.mk "58" "02" (some "Country Code") (FieldVal.str "BR"),
             Field.mk "59" "variable" (some "Merchant Name")
              (FieldVal.str (upperStr (p.merchantName.getD ""))),
             Field.mk "60" "variable" (some "Merchant City")
              (FieldVal.str (upperStr (p.merchantCity.getD ""))),
             Field.mk "62" "variable" (some "Additional Data Field Template")
              (FieldVal.arr [Field.mk "05" "variable" (some "Transaction ID")
                  (FieldVal.str (p.transactionId.getD "")),
                Field.mk "50" "variable"
                  (some "Payment system specific template")
                  (FieldVal.arr [Field.mk "00" "17" (some "GUI")
                      (FieldVal.str "BR.GOV.BCB.BRCODE"),
                    Field.mk "01" "05" (some "version")
                      (FieldVal.str "1.0.0")])])]
            (by
              intro f hf
              simp only [List.mem_cons, List.not_mem_nil, or_false] at hf
              rcases hf with rfl | rfl | rfl | rfl | rfl | rfl | rfl | rfl
              exacts [hok00, hok26, hok52, hok53, hok58, hok59, hok60, hok62])
            (by
              intro f hf
              simp only [List.mem_cons, List.not_mem_nil, or_false] at hf
              rcases hf with rfl | rfl | rfl | rfl | rfl | rfl | rfl | rfl
              exacts [rfl, hsig26, rfl, rfl, rfl, rfl, rfl, hsig62])
    · -- description only
      have hdp : truthy p.description = true := by
        rcases h62p with h | h
        · exact absurd h ht
        · exact h
      have hdne := truthy_getD_ne hdp
      rw [if_neg ht, if_pos hdp] at hd
      have hsum' := hsum
      rw [if_neg ht, if_pos hdp] at hsum'
      have hsubok62 : ∀ x ∈ [Field.mk "02" "variable" (some "Description")
            (FieldVal.str (p.description.getD "")),
          Field.mk "50" "variable" (some "Payment system specific template")
            (FieldVal.arr [Field.mk "00" "17" (some "GUI")
                (FieldVal.str "BR.GOV.BCB.BRCODE"),
              Field.mk "01" "05" (some "version")
                (FieldVal.str "1.0.0")])], SubOk x := by
        intro x hx
        simp only [List.mem_cons, List.not_mem_nil, or_false] at hx
        rcases hx with rfl | rfl
        · exact ⟨rfl, by show ("02" : String) ≠ ""; decide,
              by show ("02" : String) ≠ "26"; decide,
              by show ("02" : String) ≠ "62"; decide, str_pos hdne,
            by show (p.description.getD "").length < 100; omega⟩
        · exact (subOkB_iff _).mp (by decide)
      have h62len : (encodeSubs [Field.mk "02" "variable" (some "Description")
            (FieldVal.str (p.description.getD "")),
          Field.mk "50" "variable" (some "Payment system specific template")
            (FieldVal.arr [Field.mk "00" "17" (some "GUI")
                (FieldVal.str "BR.GOV.BCB.BRCODE"),
              Field.mk "01" "05" (some "version")
                (FieldVal.str "1.0.0")])]).length < 100 := by
        rw [encodeSubs_length_cons "02" "variable" (some "Description")
          (FieldVal.str (p.description.getD ""))
          [Field.mk "50" "variable" (some "Payment system specific template")
            (FieldVal.arr [Field.mk "00" "17" (some "GUI")
                (FieldVal.str "BR.GOV.BCB.BRCODE"),
              Field.mk "01" "05" (some "version")
                (FieldVal.str "1.0.0")])]
          (by decide) (by decide)
          (by show (p.description.getD "").length < 100; omega)]
        rw [encodeSubs_length_cons "50" "variable"
          (some "Payment system specific template")
          (FieldVal.arr [Field.mk "00" "17" (some "GUI")
              (FieldVal.str "BR.GOV.BCB.BRCODE"),
            Field.mk "01" "05" (some "version") (FieldVal.str "1.0.0")])
          [] (by decide) (by decide) (by decide)]
        have e2 : (subValueStr (FieldVal.str (p.description.getD ""))).length
            = (p.description.getD "").length := rfl
        have e3 : (subValueStr (FieldVal.arr [Field.mk "00" "17" (some "GUI")
              (FieldVal.str "BR.GOV.BCB.BRCODE"),
            Field.mk "01" "05" (some "version")
              (FieldVal.str "1.0.0")])).length = 30 := by decide
        have e4 : (encodeSubs ([] : List Field)).length = 0 := by decide
        rw [e2, e3, e4]
        omega
      have hok62 : TopOk (Field.mk "62" "variable"
          (some "Additional Data Field Template")
          (FieldVal.arr [Field.mk "02" "variable" (some "Description")
              (FieldVal.str (p.description.getD "")),
            Field.mk "50" "variable"
              (some "Payment system specific template")
              (FieldVal.arr [Field.mk "00" "17" (some "GUI")
                  (FieldVal.str "BR.GOV.BCB.BRCODE"),
                Field.mk "01" "05" (some "version")
                  (FieldVal.str "1.0.0")])])) :=
        TopOk_comp "62" "variable" (some "Additional Data Field Template") _
          rfl (by decide) (by decide) (Or.inr rfl) hsubok62 (by simp) h62len
      have hsig62 := fieldSig_reDec_comp "62" "variable"
        (some "Additional Data Field Template")
        [Field.mk "02" "variable" (some "Description")
            (FieldVal.str (p.description.getD "")),
          Field.mk "50" "variable" (some "Payment system specific template")
            (FieldVal.arr [Field.mk "00" "17" (some "GUI")
                (FieldVal.str "BR.GOV.BCB.BRCODE"),
              Field.mk "01" "05" (some "version")
                (FieldVal.str "1.0.0")])]
        hsubok62 (by simp) (by
          intro x hx
          simp only [List.mem_cons, List.not_mem_nil, or_false] at hx
          rcases hx with rfl | rfl
          · rfl
          · decide)
      by_cases hamt : truthy p.amount = true
      · rw [if_pos hamt] at hd
        injection hd with hd2
        subst hd2
        exact C2_core
          [Field.mk "00" "02" (some "Payload Format Indicator")
            (FieldVal.str "01"),
           Field.mk "26" "variable" (some "Merchant Account Information")
            (FieldVal.arr [Field.mk "00" "14" (some "GUI")
                (FieldVal.str "BR.GOV.BCB.PIX"),
              Field.mk "01" "variable" (some "Key")
                (FieldVal.str (p.key.getD ""))]),
           Field.mk "52" "04" (some "Merchant Category Code (MCC)")
            (FieldVal.str "0000"),
           Field.mk "53" "03" (some "Transaction Currency")
            (FieldVal.str "986"),
           Field.mk "54" "variable" (some "Transaction Amount")
            (FieldVal.str (toFixed2 (p.amount.getD ""))),
           Field.mk "58" "02" (some "Country Code") (FieldVal.str "BR"),
           Field.mk "59" "variable" (some "Merchant Name")
            (FieldVal.str (upperStr (p.merchantName.getD ""))),
           Field.mk "60" "variable" (some "Merchant City")
            (FieldVal.str (upperStr (p.merchantCity.getD ""))),
           Field.mk "62" "variable" (some "Additional Data Field Template")
            (FieldVal.arr [Field.mk "02" "variable" (some "Description")
                (FieldVal.str (p.description.getD "")),
              Field.mk "50" "variable"
                (some "Payment system specific template")
                (FieldVal.arr [Field.mk "00" "17" (some "GUI")
                    (FieldVal.str "BR.GOV.BCB.BRCODE"),
                  Field.mk "01" "05" (some "version")
                    (FieldVal.str "1.0.0")])])]
          (by
            intro f hf
            simp only [List.mem_cons, List.not_mem_nil, or_false] at hf
            rcases hf with rfl | rfl | rfl | rfl | rfl | rfl | rfl | rfl | rfl
            exacts [hok00, hok26, hok52, hok53, hok54, hok58, hok59, hok60,
              hok62])
          (by
            intro f hf
            simp only [List.mem_cons, List.not_mem_nil, or_false] at hf
            rcases hf with rfl | rfl | rfl | rfl | rfl | rfl | rfl | rfl | rfl
            exacts [rfl, hsig26, rfl, rfl, rfl, rfl, rfl, rfl, hsig62])
      · rw [if_neg hamt] at hd
        injection hd with hd2
        subst hd2
        exact C2_core
          [Field.mk "00" "02" (some "Payload Format Indicator")
            (FieldVal.str "01"),
           Field.mk "26" "variable" (some "Merchant Account Information")
            (FieldVal.arr [Field.mk "00" "14" (some "GUI")
                (FieldVal.str "BR.GOV.BCB.PIX"),
              Field.mk "01" "variable" (some "Key")
                (FieldVal.str (p.key.getD ""))]),
           Field.mk "52" "04" (some "Merchant Category Code (MCC)")
            (FieldVal.str "0000"),
           Field.mk "53" "03" (some "Transaction Currency")
            (FieldVal.str "986"),
           Field.mk "58" "02" (some "Country Code") (FieldVal.str "BR"),
           Field.mk "59" "variable" (some "Merchant Name")
            (FieldVal.str (upperStr (p.merchantName.getD ""))),
           Field.mk "60" "variable" (some "Merchant City")
            (FieldVal.str (upperStr (p.merchantCity.getD ""))),
           Field.mk "62" "variable" (some "Additional Data Field Template")
            (FieldVal.arr [Field.mk "02" "variable" (some "Description")
                (FieldVal.str (p.description.getD "")),
              Field.mk "50" "variable"
                (some "Payment system specific template")
                (FieldVal.arr [Field.mk "00" "17" (some "GUI")
                    (FieldVal.str "BR.GOV.BCB.BRCODE"),
                  Field.mk "01" "05" (some "version")
                    (FieldVal.str "1.0.0")])])]
          (by
            intro f hf
            simp only [List.mem_cons, List.not_mem_nil, or_false] at hf
            rcases hf with rfl | rfl | rfl | rfl | rfl | rfl | rfl | rfl
            exacts [hok00, hok26, hok52, hok53, hok58, hok59, hok60, hok62])
          (by
            intro f hf
            simp only [List.mem_cons, List.not_mem_nil, or_false] at hf
            rcases hf with rfl | rfl | rfl | rfl | rfl | rfl | rfl | rfl
            exacts [rfl, hsig26, rfl, rfl, rfl, rfl, rfl, hsig62])
  · rw [if_neg h62p] at hd
    by_cases hamt : truthy p.amount = true
    · rw [if_pos hamt] at hd
      injection hd with hd2
      subst hd2
      exact C2_core
        [Field.mk "00" "02" (some "Payload Format Indicator")
          (FieldVal.str "01"),
         Field.mk "26" "variable" (some "Merchant Account Information")
          (FieldVal.arr [Field.mk "00" "14" (some "GUI")
              (FieldVal.str "BR.GOV.BCB.PIX"),
            Field.mk "01" "variable" (some "Key")
              (FieldVal.str (p.key.getD ""))]),
         Field.mk "52" "04" (some "Merchant Category Code (MCC)")
          (FieldVal.str "0000"),
         Field.mk "53" "03" (some "Transaction Currency")
          (FieldVal.str "986"),
         Field.mk "54" "variable" (some "Transaction Amount")
          (FieldVal.str (toFixed2 (p.amount.getD ""))),
         Field.mk "58" "02" (some "Country Code") (FieldVal.str "BR"),
         Field.mk "59" "variable" (some "Merchant Name")
          (FieldVal.str (upperStr (p.merchantName.getD ""))),
         Field.mk "60" "variable" (some "Merchant City")
          (FieldVal.str (upperStr (p.merchantCity.getD "")))]
        (by
          intro f hf
          simp only [List.mem_cons, List.not_mem_nil, or_false] at hf
          rcases hf with rfl | rfl | rfl | rfl | rfl | rfl | rfl | rfl
          exacts [hok00, hok26, hok52, hok53, hok54, hok58, hok59, hok60])
        (by
          intro f hf
          simp only [List.mem_cons, List.not_mem_nil, or_false] at hf
          rcases hf with rfl | rfl | rfl | rfl | rfl | rfl | rfl | rfl
          exacts [rfl, hsig26, rfl, rfl, rfl, rfl, rfl, rfl])
    · rw [if_neg hamt] at hd
      injection hd with hd2
      subst hd2
      exact C2_core
        [Field.mk "00" "02" (some "Payload Format Indicator")
          (FieldVal.str "01"),
         Field.mk "26" "variable" (some "Merchant Account Information")
          (FieldVal.arr [Field.mk "00" "14" (some "GUI")
              (FieldVal.str "BR.GOV.BCB.PIX"),
            Field.mk "01" "variable" (some "Key")
              (FieldVal.str (p.key.getD ""))]),
         Field.mk "52" "04" (some "Merchant Category Code (MCC)")
          (FieldVal.str "0000"),
         Field.mk "53" "03" (some "Transaction Currency")
          (FieldVal.str "986"),
         Field.mk "58" "02" (some "Country Code") (FieldVal.str "BR"),
         Field.mk "59" "variable" (some "Merchant Name")
          (FieldVal.str (upperStr (p.merchantName.getD ""))),
         Field.mk "60" "variable" (some "Merchant City")
          (FieldVal.str (upperStr (p.merchantCity.getD "")))]
        (by
          intro f hf
          simp only [List.mem_cons, List.not_mem_nil, or_false] at hf
          rcases hf with rfl | rfl | rfl | rfl | rfl | rfl | rfl
          exacts [hok00, hok26, hok52, hok53, hok58, hok59, hok60])
        (by
          intro f hf
          simp only [List.mem_cons, List.not_mem_nil, or_false] at hf
          rcases hf with rfl | rfl | rfl | rfl | rfl | rfl | rfl
          exacts [rfl, hsig26, rfl, rfl, rfl, rfl, rfl])

/-- C2 witness: the sample parameters' document round-trips; the
decode succeeds and the decoded signatures are the document's plus the
63 CRC field. -/
theorem claim_C2_witness :
    (PixCodec.decode (PixCodec.encode (docOf samplePayment))).isReturns
      = true ∧
    (decodedTop (PixCodec.encode (docOf samplePayment))).map fieldSig
      = (docOf samplePayment).value.map fieldSig
        ++ [("63", calculateCRC16
              (encodeBody (docOf samplePayment).value ++ "6304"))] :=
  claim_C2_amended samplePayment (by decide) (by decide) (by decide)
    (by decide) (by decide) (by decide) (by decide) (by decide)
    (docOf samplePayment) rfl

end Pix
